import Mathlib

/-!
# camera_canny: the capture loop of `src/openmp/camera_canny.cpp`

A shallow embedding of `main`: the command-line check, the opening of the
frame source, and the capture loop with its FPS window, its key dispatch and
its detect-and-save cycle.

Modelling conventions.

* Everything `main` obtains from its collaborators is an input of the model:
  `argc`, the three values `atof` yields, whether the capture opened, and per
  loop iteration whether the frame is empty, the values of the successive
  `time(0)` reads, the key `waitKey` returns and the value `write_pgm_image`
  returns.
* Everything `main` does to its collaborators is an event of the trace, in
  program order: messages, the `canny` call with its arguments, the
  `write_pgm_image` call with its file name.
* `int` variables hold integers of `[INT_MIN, INT_MAX]`; an `int` operation
  whose result leaves that range, and a division by zero, have no defined
  behaviour in C++ and end the run with status `undefined`.
* `float` values are never inspected by `main`; their type is a parameter `F`.
* `time_t` is the signed 64-bit type of the target; a difference of two clock
  values that leaves `[TIME_MIN, TIME_MAX]` has no defined behaviour either.
* A run over a finite list of iterations whose loop has not ended when the list
  is used up has status `running`.
-/

namespace CameraCanny

/-! ## Constants -/

/-- Frame width, `#define WIDTH 640`. -/
def WIDTH : Int := 640

/-- Frame height, `#define HEIGHT 480`. -/
def HEIGHT : Int := 480

/-- Largest value of a 32-bit `int`. -/
def INT_MAX : Int := 2147483647

/-- Smallest value of a 32-bit `int`. -/
def INT_MIN : Int := -2147483648

/-- Largest value of a 64-bit `time_t`. -/
def TIME_MAX : Int := 9223372036854775807

/-- Smallest value of a 64-bit `time_t`. -/
def TIME_MIN : Int := -9223372036854775808

/-- Key code of ESC, the literal `27` of the source. -/
def KEY_ESC : Int := 27

/-- Key code `'q'`. -/
def KEY_q : Int := Int.ofNat (Char.toNat 'q')

/-- Key code `'Q'`. -/
def KEY_Q : Int := Int.ofNat (Char.toNat 'Q')

/-- Decimal rendering of `std::to_string` on a non-negative constant. -/
def to_string (n : Int) : String := String.mk (Nat.toDigits 10 n.toNat)

/-- The GStreamer pipeline description built at lines 42-45. -/
def pipeline : String :=
  "libcamerasrc ! video/x-raw, width=" ++ to_string WIDTH ++
  ", height=" ++ to_string HEIGHT ++
  ", format=(string)BGR ! videoconvert ! appsink"

/-! ## `sprintf` with the conversion `%03d` -/

/-- Left padding with the character `0` up to a minimum width. -/
def zeroPad (width : Nat) (ds : List Char) : List Char :=
  List.replicate (width - ds.length) '0' ++ ds

/-- Output of the conversion `%03d` for an `int`: the decimal digits, padded
with zeros to a minimum field width of three; the sign of a negative value
counts in the width and comes before the zeros. -/
def fmt03d (n : Int) : List Char :=
  if n < 0 then '-' :: zeroPad 2 (Nat.toDigits 10 n.natAbs)
  else zeroPad 3 (Nat.toDigits 10 n.toNat)

/-- Result of `sprintf(filename, "frame%03d.pgm", n)`. -/
def edgeName (n : Int) : String :=
  String.mk ("frame".toList ++ fmt03d n ++ ".pgm".toList)

/-- Result of `sprintf(filename, "frame%03d_direction.fim", n)`. -/
def directionName (n : Int) : String :=
  String.mk ("frame".toList ++ fmt03d n ++ "_direction.fim".toList)

/-! ## Data model -/

/-- Command line as `main` uses it: the argument count and the values
`atof(argv[1])`, `atof(argv[2])`, `atof(argv[3])` stored in the `float`
variables (read only when `argc >= 4`). -/
structure Args (F : Type) where
  argc : Int
  sigma : F
  tlow : F
  thigh : F

/-- Where the pointer `dirfilename` points: nowhere, at the string literal
`"dummy"`, or at the buffer `filename`. -/
inductive DirPtr where
  | null
  | dummy
  | buffer
  deriving DecidableEq, Repr

/-- Calls and messages `main` issues, in program order. -/
inductive Event (F : Type) where
  /-- The usage line on stderr (line 29). -/
  | usage
  /-- Construction of the `VideoCapture` (line 46). -/
  | openCapture (desc : String)
  /-- The message `[ERROR] Failed to open camera!` (line 49). -/
  | cameraError
  /-- The two `[INFO]` lines printed before the loop (lines 62-63). -/
  | banner
  /-- The message `[ERROR] Empty frame captured!` (line 68). -/
  | emptyFrameError
  /-- The overlay of the FPS value and the display of the live frame (lines 81-85). -/
  | preview (fps : Int)
  /-- The line `Starting Canny edge detection.` (line 97). -/
  | verboseStart
  /-- The call of `canny` (line 102); `none` stands for a null `dirfilename`. -/
  | canny (rows cols : Int) (sigma tlow thigh : F) (dirfilename : Option String)
  /-- The line `Saving edge image to file ...` (line 106). -/
  | verboseSaving (filename : String)
  /-- The call of `write_pgm_image` (line 107) and the value it returned. -/
  | write_pgm_image (filename : String) (rows cols maxval : Int) (ret : Int)
  /-- The message `Error writing the edge image, ...` (line 108). -/
  | writeError (filename : String)
  /-- The line `[INFO] Frame ... processed and saved ...` (line 114). -/
  | processed (frame_count : Int)
  /-- The display of the edge image (lines 117-118). -/
  | showEdges
  /-- The line `[INFO] Program terminated. ... frames saved.` (line 126). -/
  | terminated (saved : Int)
  deriving DecidableEq

/-- The variables of `main` that live across loop iterations. -/
structure Vars where
  dirfilename : DirPtr
  /-- Contents of the buffer `filename`. -/
  filename : String
  frame_count : Int
  fps : Int
  frame_counter : Int
  start_time : Int
  deriving DecidableEq, Repr

/-- What the collaborators deliver during one loop iteration. -/
structure Frame where
  /-- Value of `frame.empty()` after `cap >> frame`. -/
  empty : Bool
  /-- Value of `time(0)` in the condition of line 74. -/
  now1 : Int
  /-- Value of `time(0)` in the division of line 75. -/
  now2 : Int
  /-- Value of `time(0)` in the assignment of line 77. -/
  now3 : Int
  /-- Value returned by `waitKey(10)`. -/
  key : Int
  /-- Value `write_pgm_image` returns if it is called in this iteration. -/
  write_ret : Int
  deriving DecidableEq, Repr

/-- What the collaborators deliver during a run. -/
structure Env where
  /-- Value of `cap.isOpened()`. -/
  isOpened : Bool
  /-- Value of `time(0)` at line 60. -/
  start : Int
  frames : List Frame

/-- Which `break` left the loop. -/
inductive Reason where
  | emptyFrame
  | writeFailed
  | quit
  deriving DecidableEq, Repr

/-- Outcome of one pass through the loop body. -/
inductive Step where
  /-- The body reached its end; the loop goes on with these variables. -/
  | next (s : Vars)
  /-- A `break` was executed. -/
  | brk (r : Reason) (s : Vars)
  /-- An operation without defined behaviour was reached. -/
  | undef
  deriving DecidableEq

/-- How the loop stands after a list of iterations. -/
inductive LoopEnd where
  /-- The loop was left by a `break`. -/
  | ended (r : Reason) (s : Vars)
  /-- All given iterations ran and the loop is at the start of the next one. -/
  | pending (s : Vars)
  /-- An operation without defined behaviour was reached. -/
  | undefined
  deriving DecidableEq

/-- How a run of `main` stands. -/
inductive Status where
  /-- The call `exit(code)`. -/
  | exited (code : Int)
  /-- The statement `return code` of `main`. -/
  | returned (code : Int)
  /-- The loop is still running after all given iterations. -/
  | running
  /-- An operation without defined behaviour was reached. -/
  | undefined
  deriving DecidableEq, Repr

/-- A run of `main`: what it did and how it stands. -/
structure Run (F : Type) where
  trace : List (Event F)
  status : Status

/-! ## The loop body -/

/-- Lines 73-78: the frame counter and the one-second FPS window. The result
is `none` where the source has no defined behaviour: the increment of a counter
that stands at `INT_MAX`, a difference `time(0) - start_time` outside the range
of `time_t`, and a division by zero. -/
def fpsUpdate (s : Vars) (it : Frame) : Option Vars :=
  if INT_MAX ≤ s.frame_counter then none
  else
    let s1 := { s with frame_counter := s.frame_counter + 1 }
    if it.now1 - s1.start_time < TIME_MIN ∨ TIME_MAX < it.now1 - s1.start_time then none
    else if 1 ≤ it.now1 - s1.start_time then
      if it.now2 - s1.start_time < TIME_MIN ∨ TIME_MAX < it.now2 - s1.start_time then none
      else if it.now2 - s1.start_time = 0 then none
      else some { s1 with fps := Int.tdiv s1.frame_counter (it.now2 - s1.start_time),
                          frame_counter := 0,
                          start_time := it.now3 }
    else some s1

/-- The string `canny` finds behind `dirfilename`. -/
def deref (s : Vars) : Option String :=
  match s.dirfilename with
  | DirPtr.null => none
  | DirPtr.dummy => some "dummy"
  | DirPtr.buffer => some s.filename

/-- Lines 89-123: what the loop body does with the key. `VERBOSE` is the macro
of `canny_util.h`. -/
def dispatch {F : Type} (VERBOSE : Int) (args : Args F) (s : Vars) (key write_ret : Int) :
    List (Event F) × Step :=
  if key = KEY_ESC then
    let e1 : List (Event F) := if VERBOSE ≠ 0 then [Event.verboseStart] else []
    let s1 : Vars :=
      if s.dirfilename ≠ DirPtr.null then
        { s with filename := directionName s.frame_count, dirfilename := DirPtr.buffer }
      else s
    let e2 : List (Event F) :=
      [Event.canny HEIGHT WIDTH args.sigma args.tlow args.thigh (deref s1)]
    let s2 : Vars := { s1 with filename := edgeName s1.frame_count }
    let e3 : List (Event F) := if VERBOSE ≠ 0 then [Event.verboseSaving s2.filename] else []
    let e4 : List (Event F) := [Event.write_pgm_image s2.filename HEIGHT WIDTH 255 write_ret]
    if write_ret = 0 then
      (e1 ++ e2 ++ e3 ++ e4 ++ [Event.writeError s2.filename], Step.brk Reason.writeFailed s2)
    else
      let e5 : List (Event F) := [Event.processed s2.frame_count, Event.showEdges]
      if INT_MAX ≤ s2.frame_count then (e1 ++ e2 ++ e3 ++ e4 ++ e5, Step.undef)
      else (e1 ++ e2 ++ e3 ++ e4 ++ e5, Step.next { s2 with frame_count := s2.frame_count + 1 })
  else if key = KEY_q ∨ key = KEY_Q then ([], Step.brk Reason.quit s)
  else ([], Step.next s)

/-- Lines 66-123: one pass through the loop body. -/
def iteration {F : Type} (VERBOSE : Int) (args : Args F) (s : Vars) (it : Frame) :
    List (Event F) × Step :=
  if it.empty then ([Event.emptyFrameError], Step.brk Reason.emptyFrame s)
  else
    match fpsUpdate s it with
    | none => ([], Step.undef)
    | some s1 =>
      let r := dispatch VERBOSE args s1 it.key it.write_ret
      (Event.preview s1.fps :: r.1, r.2)

/-- Lines 65-124: the loop `while (true)` over the iterations given. -/
def loop {F : Type} (VERBOSE : Int) (args : Args F) : Vars → List Frame → List (Event F) × LoopEnd
  | s, [] => ([], LoopEnd.pending s)
  | s, it :: rest =>
    match iteration VERBOSE args s it with
    | (ev, Step.next s1) =>
      let r := loop VERBOSE args s1 rest
      (ev ++ r.1, r.2)
    | (ev, Step.brk why s1) => (ev, LoopEnd.ended why s1)
    | (ev, Step.undef) => (ev, LoopEnd.undefined)

/-- The variables as lines 39-40 and 53-60 leave them. The buffer `filename`
is not initialised by the source and is written before it is ever read. -/
def initVars {F : Type} (args : Args F) (env : Env) : Vars :=
  { dirfilename := if args.argc = 5 then DirPtr.dummy else DirPtr.null,
    filename := "",
    frame_count := 1,
    fps := 0,
    frame_counter := 0,
    start_time := env.start }

/-- The function `main`. -/
def main {F : Type} (VERBOSE : Int) (args : Args F) (env : Env) : Run F :=
  if args.argc < 4 then
    { trace := [Event.usage], status := Status.exited 1 }
  else
    let e0 : List (Event F) := [Event.openCapture pipeline]
    if env.isOpened = false then
      { trace := e0 ++ [Event.cameraError], status := Status.returned (-1) }
    else
      match loop VERBOSE args (initVars args env) env.frames with
      | (ev, LoopEnd.ended _ s) =>
        if s.frame_count - 1 < INT_MIN then
          { trace := e0 ++ [Event.banner] ++ ev, status := Status.undefined }
        else
          { trace := e0 ++ [Event.banner] ++ ev ++ [Event.terminated (s.frame_count - 1)],
            status := Status.returned 0 }
      | (ev, LoopEnd.pending _) =>
        { trace := e0 ++ [Event.banner] ++ ev, status := Status.running }
      | (ev, LoopEnd.undefined) =>
        { trace := e0 ++ [Event.banner] ++ ev, status := Status.undefined }

/-! ## Observations on a trace -/

/-- The direction file names passed to `canny`, call by call. -/
def cannyCalls {F : Type} : List (Event F) → List (Option String)
  | [] => []
  | Event.canny _ _ _ _ _ d :: rest => d :: cannyCalls rest
  | _ :: rest => cannyCalls rest

/-- The parameter triples passed to `canny`, call by call. -/
def cannyParams {F : Type} : List (Event F) → List (F × F × F)
  | [] => []
  | Event.canny _ _ sigma tlow thigh _ :: rest => (sigma, tlow, thigh) :: cannyParams rest
  | _ :: rest => cannyParams rest

/-- The file names passed to `write_pgm_image`, call by call. -/
def writeCalls {F : Type} : List (Event F) → List String
  | [] => []
  | Event.write_pgm_image name _ _ _ _ :: rest => name :: writeCalls rest
  | _ :: rest => writeCalls rest

/-- Number of `write_pgm_image` calls that returned a value other than 0. -/
def savedCount {F : Type} : List (Event F) → Int
  | [] => 0
  | Event.write_pgm_image _ _ _ _ ret :: rest =>
    if ret = 0 then savedCount rest else savedCount rest + 1
  | _ :: rest => savedCount rest

/-- Every output file name a trace mentions: the direction file of each
`canny` call that has one, and the file of each `write_pgm_image` call. -/
def outputFiles {F : Type} : List (Event F) → List String
  | [] => []
  | Event.canny _ _ _ _ _ (some d) :: rest => d :: outputFiles rest
  | Event.write_pgm_image name _ _ _ _ :: rest => name :: outputFiles rest
  | _ :: rest => outputFiles rest

/-- The events of a list that are calls of `canny` or `write_pgm_image`, in order. -/
def collaboratorCalls {F : Type} : List (Event F) → List (Event F)
  | [] => []
  | Event.canny r c sigma tlow thigh d :: rest =>
    Event.canny r c sigma tlow thigh d :: collaboratorCalls rest
  | Event.write_pgm_image name r c m ret :: rest =>
    Event.write_pgm_image name r c m ret :: collaboratorCalls rest
  | _ :: rest => collaboratorCalls rest

/-- The event with the parameter triple of a `canny` call replaced. -/
def withParams {F : Type} (a b c : F) : Event F → Event F
  | Event.canny rows cols _ _ _ d => Event.canny rows cols a b c d
  | e => e

/-! ## Auxiliary notions of the proofs -/

/-- The direction file name a cycle with sequence number `k` hands to `canny`
when `dirfilename` is `p` at the start of the cycle. -/
def dirArg (p : DirPtr) (k : Int) : Option String :=
  if p = DirPtr.null then none else some (directionName k)

/-- Two states agree on what a cycle depends on. -/
def SameSeq (s t : Vars) : Prop :=
  t.frame_count = s.frame_count ∧ (t.dirfilename = DirPtr.null ↔ s.dirfilename = DirPtr.null)

/-- An event list without any call of `canny` or `write_pgm_image`. -/
def Quiet {F : Type} (ev : List (Event F)) : Prop :=
  writeCalls ev = [] ∧ cannyCalls ev = [] ∧ cannyParams ev = [] ∧ outputFiles ev = [] ∧
  savedCount ev = 0

/-- An event list with exactly the calls of one detect-and-save cycle. -/
def OneCycle {F : Type} (args : Args F) (s : Vars) (ev : List (Event F)) : Prop :=
  writeCalls ev = [edgeName s.frame_count] ∧
  cannyCalls ev = [dirArg s.dirfilename s.frame_count] ∧
  cannyParams ev = [(args.sigma, args.tlow, args.thigh)] ∧
  outputFiles ev = (dirArg s.dirfilename s.frame_count).toList ++ [edgeName s.frame_count]

/-- The clock reads of an iteration are calendar times within the range of
`time_t`, and the read of the division is not earlier than the read of the
condition. -/
def ClockOk (it : Frame) : Prop :=
  0 ≤ it.now1 ∧ it.now1 ≤ it.now2 ∧ it.now2 ≤ TIME_MAX ∧ 0 ≤ it.now3 ∧ it.now3 ≤ TIME_MAX

/-- Value of a decimal digit character. -/
def digitVal (c : Char) : Nat := c.toNat - 48

/-- Value of a string of decimal digits, most significant digit first. -/
def decodeNat (cs : List Char) : Nat := cs.foldl (fun a c => 10 * a + digitVal c) 0

/-! ## Sample inputs -/

/-- A non-empty frame at clock value `t` with key `key`; a write in it returns `ret`. -/
def frameAt (t key ret : Int) : Frame :=
  { empty := false, now1 := t, now2 := t, now3 := t, key := key, write_ret := ret }

/-- An empty frame. -/
def emptyFrame : Frame :=
  { empty := true, now1 := 0, now2 := 0, now3 := 0, key := -1, write_ret := 1 }

/-- A command line with `argc` arguments and the parameters 1.0, 0.3, 0.7. -/
def sampleArgs (argc : Int) : Args ℚ :=
  { argc := argc, sigma := 1, tlow := 3 / 10, thigh := 7 / 10 }

/-- A command line with four arguments whose parameters are out of range:
`sigma = 0` and `tlow = thigh = 0.5`. -/
def degenerateArgs : Args ℚ :=
  { argc := 4, sigma := 0, tlow := 1 / 2, thigh := 1 / 2 }

variable {F : Type}

/-! ## Evaluation of the formats -/

theorem edgeName_one : edgeName 1 = "frame001.pgm" := by decide

theorem edgeName_two_digits : edgeName 12 = "frame012.pgm" := by decide

theorem edgeName_four_digits : edgeName 1234 = "frame1234.pgm" := by decide

theorem edgeName_negative : edgeName (-5) = "frame-05.pgm" := by decide

theorem directionName_seven : directionName 7 = "frame007_direction.fim" := by decide

theorem pipeline_eq : pipeline =
    "libcamerasrc ! video/x-raw, width=640, height=480, format=(string)BGR ! videoconvert ! appsink" := by
  decide

/-! ## Observations distribute over concatenation -/

theorem writeCalls_append (a b : List (Event F)) : writeCalls (a ++ b) = writeCalls a ++ writeCalls b := by
  induction a with
  | nil => rfl
  | cons e a ih => cases e <;> simp [writeCalls, ih]

theorem cannyCalls_append (a b : List (Event F)) : cannyCalls (a ++ b) = cannyCalls a ++ cannyCalls b := by
  induction a with
  | nil => rfl
  | cons e a ih => cases e <;> simp [cannyCalls, ih]

theorem cannyParams_append (a b : List (Event F)) : cannyParams (a ++ b) = cannyParams a ++ cannyParams b := by
  induction a with
  | nil => rfl
  | cons e a ih => cases e <;> simp [cannyParams, ih]

theorem savedCount_append (a b : List (Event F)) : savedCount (a ++ b) = savedCount a + savedCount b := by
  induction a with
  | nil => simp [savedCount]
  | cons e a ih =>
    cases e <;> simp [savedCount, ih]
    split_ifs <;> omega

theorem outputFiles_append (a b : List (Event F)) : outputFiles (a ++ b) = outputFiles a ++ outputFiles b := by
  induction a with
  | nil => rfl
  | cons e a ih =>
    cases e <;> simp [outputFiles, ih]
    rename_i d
    cases d <;> simp [outputFiles, ih]


/-! ## One iteration, the loop, the run -/

theorem fpsUpdate_same (s t : Vars) (it : Frame) (h : fpsUpdate s it = some t) :
    t.frame_count = s.frame_count ∧ t.dirfilename = s.dirfilename ∧ t.filename = s.filename := by
  simp only [fpsUpdate] at h
  split_ifs at h <;> simp at h <;> subst h <;> simp

theorem dispatch_cases (V : Int) (args : Args F) (s : Vars) (key wr : Int) :
    (Quiet (dispatch V args s key wr).1 ∧ key ≠ KEY_ESC ∧
      ((dispatch V args s key wr).2 = Step.brk Reason.quit s ∧ (key = KEY_q ∨ key = KEY_Q) ∨
       (dispatch V args s key wr).2 = Step.next s ∧ key ≠ KEY_q ∧ key ≠ KEY_Q)) ∨
    (OneCycle args s (dispatch V args s key wr).1 ∧ key = KEY_ESC ∧
      ((wr = 0 ∧ savedCount (dispatch V args s key wr).1 = 0 ∧
          ∃ t, (dispatch V args s key wr).2 = Step.brk Reason.writeFailed t ∧ SameSeq s t) ∨
       (wr ≠ 0 ∧ savedCount (dispatch V args s key wr).1 = 1 ∧
          ((INT_MAX ≤ s.frame_count ∧ (dispatch V args s key wr).2 = Step.undef) ∨
           (s.frame_count < INT_MAX ∧ ∃ t, (dispatch V args s key wr).2 = Step.next t ∧
              t.frame_count = s.frame_count + 1 ∧
              (t.dirfilename = DirPtr.null ↔ s.dirfilename = DirPtr.null)))))) := by
  by_cases hk : key = KEY_ESC
  · right
    subst hk
    cases hp : s.dirfilename <;> by_cases hv : V = 0 <;> by_cases hw : wr = 0 <;>
      by_cases hm : INT_MAX ≤ s.frame_count <;>
      simp [dispatch, OneCycle, SameSeq, hp, hv, hw, hm, deref, dirArg, writeCalls, cannyCalls,
        cannyParams, outputFiles, savedCount] <;> omega
  · left
    by_cases hq : key = KEY_q ∨ key = KEY_Q
    · simp [dispatch, hk, hq, Quiet, writeCalls, cannyCalls, cannyParams, outputFiles, savedCount]
    · have hq2 := hq
      push_neg at hq2
      simp [dispatch, hk, hq, hq2, Quiet, writeCalls, cannyCalls, cannyParams, outputFiles, savedCount]

theorem quiet_preview (fps : Int) (ev : List (Event F)) :
    Quiet (Event.preview fps :: ev) ↔ Quiet ev := by
  simp [Quiet, writeCalls, cannyCalls, cannyParams, outputFiles, savedCount]

theorem oneCycle_preview (args : Args F) (s : Vars) (fps : Int) (ev : List (Event F)) :
    OneCycle args s (Event.preview fps :: ev) ↔ OneCycle args s ev := by
  simp [OneCycle, writeCalls, cannyCalls, cannyParams, outputFiles]

theorem savedCount_preview (fps : Int) (ev : List (Event F)) :
    savedCount (Event.preview fps :: ev) = savedCount ev := by
  simp [savedCount]

theorem oneCycle_congr (args : Args F) (s t : Vars) (ev : List (Event F))
    (h1 : t.frame_count = s.frame_count) (h2 : t.dirfilename = s.dirfilename) :
    OneCycle args t ev ↔ OneCycle args s ev := by
  simp [OneCycle, h1, h2]

theorem iteration_cases (V : Int) (args : Args F) (s : Vars) (it : Frame) :
    (Quiet (iteration V args s it).1 ∧
      ((iteration V args s it).2 = Step.undef ∨
       (∃ why t, (iteration V args s it).2 = Step.brk why t ∧ why ≠ Reason.writeFailed ∧
          SameSeq s t) ∨
       (∃ t, (iteration V args s it).2 = Step.next t ∧ SameSeq s t))) ∨
    (OneCycle args s (iteration V args s it).1 ∧
      ((savedCount (iteration V args s it).1 = 0 ∧
          ∃ t, (iteration V args s it).2 = Step.brk Reason.writeFailed t ∧ SameSeq s t) ∨
       (savedCount (iteration V args s it).1 = 1 ∧
          ((iteration V args s it).2 = Step.undef ∨
           (s.frame_count < INT_MAX ∧ ∃ t, (iteration V args s it).2 = Step.next t ∧
              t.frame_count = s.frame_count + 1 ∧
              (t.dirfilename = DirPtr.null ↔ s.dirfilename = DirPtr.null)))))) := by
  by_cases he : it.empty = true
  · left
    simp only [iteration, he, if_true]
    refine ⟨by simp [Quiet, writeCalls, cannyCalls, cannyParams, outputFiles, savedCount], ?_⟩
    exact Or.inr (Or.inl ⟨Reason.emptyFrame, s, rfl, by decide, rfl, Iff.rfl⟩)
  · cases hf : fpsUpdate s it with
    | none =>
      left
      simp [iteration, he, hf, Quiet, writeCalls, cannyCalls, cannyParams, outputFiles,
        savedCount]
    | some s1 =>
      obtain ⟨h1, h2, _⟩ := fpsUpdate_same s s1 it hf
      have hit : iteration V args s it =
          (Event.preview s1.fps :: (dispatch V args s1 it.key it.write_ret).1,
            (dispatch V args s1 it.key it.write_ret).2) := by
        simp [iteration, he, hf]
      rw [hit]
      simp only [quiet_preview, oneCycle_preview, savedCount_preview]
      rcases dispatch_cases V args s1 it.key it.write_ret with
        ⟨hq, _, hr | hr⟩ | ⟨hc, _, ⟨_, hs, t, ht, hst⟩ | ⟨_, hs, hr | ⟨hlt, t, ht, h3, h4⟩⟩⟩
      · left
        refine ⟨hq, Or.inr (Or.inl ⟨Reason.quit, s1, hr.1, by decide, h1, by rw [h2]⟩)⟩
      · left
        exact ⟨hq, Or.inr (Or.inr ⟨s1, hr.1, h1, by rw [h2]⟩)⟩
      · right
        refine ⟨(oneCycle_congr args s s1 _ h1 h2).1 hc, Or.inl ⟨hs, t, ht, ?_⟩⟩
        exact ⟨hst.1.trans h1, by rw [hst.2, h2]⟩
      · right
        exact ⟨(oneCycle_congr args s s1 _ h1 h2).1 hc, Or.inr ⟨hs, Or.inl hr.2⟩⟩
      · right
        refine ⟨(oneCycle_congr args s s1 _ h1 h2).1 hc, Or.inr ⟨hs, Or.inr ⟨by omega, t, ht, ?_, ?_⟩⟩⟩
        · omega
        · rw [h4, h2]

theorem loop_nil (V : Int) (args : Args F) (s : Vars) :
    loop V args s [] = ([], LoopEnd.pending s) := rfl

theorem loop_cons_next (V : Int) (args : Args F) (s t : Vars) (it : Frame) (rest : List Frame)
    (h : (iteration V args s it).2 = Step.next t) :
    loop V args s (it :: rest) =
      ((iteration V args s it).1 ++ (loop V args t rest).1, (loop V args t rest).2) := by
  rw [loop]
  cases hi : iteration V args s it with
  | mk ev st =>
    rw [hi] at h
    simp only at h
    subst h
    rfl

theorem loop_cons_brk (V : Int) (args : Args F) (s t : Vars) (why : Reason) (it : Frame)
    (rest : List Frame) (h : (iteration V args s it).2 = Step.brk why t) :
    loop V args s (it :: rest) = ((iteration V args s it).1, LoopEnd.ended why t) := by
  rw [loop]
  cases hi : iteration V args s it with
  | mk ev st =>
    rw [hi] at h
    simp only at h
    subst h
    rfl

theorem loop_cons_undef (V : Int) (args : Args F) (s : Vars) (it : Frame)
    (rest : List Frame) (h : (iteration V args s it).2 = Step.undef) :
    loop V args s (it :: rest) = ((iteration V args s it).1, LoopEnd.undefined) := by
  rw [loop]
  cases hi : iteration V args s it with
  | mk ev st =>
    rw [hi] at h
    simp only at h
    subst h
    rfl


theorem dirArg_congr (p q : DirPtr) (k : Int) (h : q = DirPtr.null ↔ p = DirPtr.null) :
    dirArg q k = dirArg p k := by
  by_cases hp : p = DirPtr.null
  · simp [dirArg, hp, h.2 hp]
  · have hq : ¬ q = DirPtr.null := fun c => hp (h.1 c)
    simp [dirArg, hp, hq]

theorem range_succ_map_shift {α : Type} (f : Int → α) (c : Int) (n : Nat) :
    (List.range (n + 1)).map (fun i => f (c + (i : Nat))) =
      f c :: (List.range n).map (fun i => f (c + 1 + (i : Nat))) := by
  rw [List.range_succ_eq_map]
  simp only [List.map_cons, List.map_map, Nat.cast_zero, add_zero]
  congr 1
  apply List.map_congr_left
  intro i _
  simp only [Function.comp, Nat.cast_succ]
  congr 1
  ring

theorem map_range_one {α : Type} (f : Nat → α) : (List.range 1).map f = [f 0] := rfl

theorem loop_summary (V : Int) (args : Args F) : ∀ (frames : List Frame) (s : Vars),
    1 ≤ s.frame_count → s.frame_count ≤ INT_MAX →
    ∃ n : Nat,
      s.frame_count + n ≤ INT_MAX + 1 ∧
      writeCalls (loop V args s frames).1 =
        (List.range n).map (fun i => edgeName (s.frame_count + (i : Nat))) ∧
      cannyCalls (loop V args s frames).1 =
        (List.range n).map (fun i => dirArg s.dirfilename (s.frame_count + (i : Nat))) ∧
      cannyParams (loop V args s frames).1 =
        List.replicate n (args.sigma, args.tlow, args.thigh) ∧
      (∀ t, (loop V args s frames).2 = LoopEnd.pending t →
        t.frame_count = s.frame_count + n ∧ savedCount (loop V args s frames).1 = n) ∧
      (∀ why t, (loop V args s frames).2 = LoopEnd.ended why t →
        t.frame_count = s.frame_count + savedCount (loop V args s frames).1 ∧
        (why = Reason.writeFailed → savedCount (loop V args s frames).1 + 1 = n) ∧
        (why ≠ Reason.writeFailed → savedCount (loop V args s frames).1 = n)) := by
  intro frames
  induction frames with
  | nil =>
    intro s h1 h2
    refine ⟨0, by simpa using (by omega : s.frame_count ≤ INT_MAX + 1), ?_⟩
    simp [loop, writeCalls, cannyCalls, cannyParams, savedCount]
  | cons it rest ih =>
    intro s h1 h2
    rcases iteration_cases V args s it with
      ⟨hq, hu | ⟨why, t, hb, hne, hst⟩ | ⟨t, hn, hst⟩⟩ |
      ⟨hc, ⟨hs, t, hb, hst⟩ | ⟨hs, hu | ⟨hlt, t, hn, h3, h4⟩⟩⟩
    · -- quiet, undefined
      obtain ⟨q1, q2, q3, _, q5⟩ := hq
      refine ⟨0, by simpa using (by omega : s.frame_count ≤ INT_MAX + 1), ?_⟩
      rw [loop_cons_undef V args s it rest hu]
      simp [q1, q2, q3]
    · -- quiet, break
      obtain ⟨q1, q2, q3, _, q5⟩ := hq
      refine ⟨0, by simpa using (by omega : s.frame_count ≤ INT_MAX + 1), ?_⟩
      rw [loop_cons_brk V args s t why it rest hb]
      simp only [q1, q2, q3, q5]
      refine ⟨rfl, rfl, rfl, by simp, ?_⟩
      intro why2 t2 h
      simp only [LoopEnd.ended.injEq] at h
      obtain ⟨rfl, rfl⟩ := h
      exact ⟨by simpa using hst.1, fun c => absurd c hne, fun _ => by simp⟩
    · -- quiet, next
      obtain ⟨q1, q2, q3, _, q5⟩ := hq
      obtain ⟨n, b, w, c, p, hp, he⟩ := ih t (by rw [hst.1]; exact h1) (by rw [hst.1]; exact h2)
      rw [hst.1] at b w c hp he
      refine ⟨n, b, ?_⟩
      rw [loop_cons_next V args s t it rest hn]
      simp only [writeCalls_append, cannyCalls_append, cannyParams_append, savedCount_append,
        q1, q2, q3, q5, List.nil_append, zero_add]
      refine ⟨w, ?_, p, hp, he⟩
      rw [c]
      apply List.map_congr_left
      intro i _
      exact dirArg_congr _ _ _ hst.2
    · -- cycle, write failed
      obtain ⟨c1, c2, c3, _⟩ := hc
      refine ⟨1, by simpa using (by omega : s.frame_count ≤ INT_MAX), ?_⟩
      rw [loop_cons_brk V args s t _ it rest hb]
      simp only [c1, c2, c3, hs]
      refine ⟨by simp [map_range_one], by simp [map_range_one], rfl, by simp, ?_⟩
      intro why2 t2 h
      simp only [LoopEnd.ended.injEq] at h
      obtain ⟨rfl, rfl⟩ := h
      exact ⟨by simpa using hst.1, fun _ => by simp, fun c => absurd rfl c⟩
    · -- cycle, counter overflow
      obtain ⟨c1, c2, c3, _⟩ := hc
      refine ⟨1, by simpa using (by omega : s.frame_count ≤ INT_MAX), ?_⟩
      rw [loop_cons_undef V args s it rest hu]
      simp [c1, c2, c3, map_range_one]
    · -- cycle, next
      obtain ⟨c1, c2, c3, _⟩ := hc
      obtain ⟨n, b, w, c, p, hp, he⟩ := ih t (by omega) (by omega)
      rw [h3] at b w c hp he
      refine ⟨n + 1, by push_cast; omega, ?_⟩
      rw [loop_cons_next V args s t it rest hn]
      simp only [writeCalls_append, cannyCalls_append, cannyParams_append, savedCount_append,
        c1, c2, c3, hs]
      refine ⟨?_, ?_, ?_, ?_, ?_⟩
      · rw [w, range_succ_map_shift]; rfl
      · rw [c, range_succ_map_shift]
        simp only [List.singleton_append, List.cons.injEq, true_and]
        apply List.map_congr_left
        intro i _
        exact dirArg_congr _ _ _ h4
      · rw [p, List.replicate_succ]; rfl
      · intro t2 h
        obtain ⟨a1, a2⟩ := hp t2 h
        exact ⟨by rw [a1]; push_cast; ring, by rw [a2]; push_cast; ring⟩
      · intro why2 t2 h
        obtain ⟨a1, a2, a3⟩ := he why2 t2 h
        refine ⟨by rw [a1]; ring, fun c => ?_, fun c => ?_⟩
        · have := a2 c; push_cast; omega
        · have := a3 c; push_cast; omega



theorem digitVal_digitChar (d : Nat) (h : d < 10) : digitVal (Nat.digitChar d) = d := by
  interval_cases d <;> rfl

theorem foldl_toDigitsCore : ∀ (fuel n : Nat) (ds : List Char), n < fuel →
    List.foldl (fun a c => 10 * a + digitVal c) 0 (Nat.toDigitsCore 10 fuel n ds) =
      List.foldl (fun a c => 10 * a + digitVal c) n ds := by
  intro fuel
  induction fuel with
  | zero => intro n ds h; omega
  | succ fuel ih =>
    intro n ds h
    have hd : digitVal (Nat.digitChar (n % 10)) = n % 10 :=
      digitVal_digitChar _ (Nat.mod_lt _ (by decide))
    simp only [Nat.toDigitsCore]
    split_ifs with h0
    · simp only [List.foldl_cons, hd]
      congr 1
      omega
    · rw [ih (n / 10) _ (by omega)]
      simp only [List.foldl_cons, hd]
      congr 1
      omega

theorem decodeNat_toDigits (n : Nat) : decodeNat (Nat.toDigits 10 n) = n := by
  simp [decodeNat, Nat.toDigits, foldl_toDigitsCore]

theorem decodeNat_zeroPad (w : Nat) (ds : List Char) : decodeNat (zeroPad w ds) = decodeNat ds := by
  unfold zeroPad decodeNat
  rw [List.foldl_append]
  congr 1
  generalize w - ds.length = k
  induction k with
  | zero => rfl
  | succ k ih => rw [List.replicate_succ, List.foldl_cons]; exact ih

theorem decodeNat_fmt03d (n : Int) (h : 0 ≤ n) : (decodeNat (fmt03d n) : Int) = n := by
  have hn : ¬ n < 0 := by omega
  simp only [fmt03d, hn, if_false, decodeNat_zeroPad, decodeNat_toDigits]
  omega

theorem fmt03d_inj (m n : Int) (hm : 0 ≤ m) (hn : 0 ≤ n) (h : fmt03d m = fmt03d n) : m = n := by
  rw [← decodeNat_fmt03d m hm, ← decodeNat_fmt03d n hn, h]

theorem edgeName_inj (m n : Int) (hm : 0 ≤ m) (hn : 0 ≤ n) (h : edgeName m = edgeName n) :
    m = n := by
  have h1 := congrArg String.data h
  simp only [edgeName] at h1
  exact fmt03d_inj m n hm hn (List.append_cancel_left (List.append_cancel_right h1))

theorem directionName_inj (m n : Int) (hm : 0 ≤ m) (hn : 0 ≤ n)
    (h : directionName m = directionName n) : m = n := by
  have h1 := congrArg String.data h
  simp only [directionName] at h1
  exact fmt03d_inj m n hm hn (List.append_cancel_left (List.append_cancel_right h1))

theorem edgeName_ne_directionName (m n : Int) : edgeName m ≠ directionName n := by
  intro h
  have h1 := congrArg (fun x => (String.data x).reverse) h
  simp only [edgeName, directionName, List.reverse_append] at h1
  have e1 : ".pgm".toList.reverse = ['m', 'g', 'p', '.'] := by decide
  have e2 : "_direction.fim".toList.reverse =
      ['m', 'i', 'f', '.', 'n', 'o', 'i', 't', 'c', 'e', 'r', 'i', 'd', '_'] := by decide
  rw [e1, e2] at h1
  simp at h1


theorem cycle_outputs_fresh (p : DirPtr) (c : Int) (hc : 1 ≤ c) (l : List String)
    (hl : l.Nodup)
    (hfrom : ∀ x ∈ l, ∃ j, c + 1 ≤ j ∧ (x = edgeName j ∨ x = directionName j)) :
    (((dirArg p c).toList ++ [edgeName c]) ++ l).Nodup := by
  have hedge : edgeName c ∉ l := by
    intro hmem
    obtain ⟨j, hj, h | h⟩ := hfrom _ hmem
    · have := edgeName_inj c j (by omega) (by omega) h
      omega
    · exact edgeName_ne_directionName c j h
  have hdir : directionName c ∉ l := by
    intro hmem
    obtain ⟨j, hj, h | h⟩ := hfrom _ hmem
    · exact edgeName_ne_directionName j c h.symm
    · have := directionName_inj c j (by omega) (by omega) h
      omega
  by_cases hp : p = DirPtr.null
  · simp [dirArg, hp, hedge, hl]
  · have hne : directionName c ≠ edgeName c := fun h => edgeName_ne_directionName c c h.symm
    simp [dirArg, hp, hedge, hdir, hl, hne]

theorem cycle_outputs_named (p : DirPtr) (c : Int) (x : String)
    (hx : x ∈ (dirArg p c).toList ++ [edgeName c]) :
    ∃ j, c ≤ j ∧ (x = edgeName j ∨ x = directionName j) := by
  by_cases hp : p = DirPtr.null
  · simp [dirArg, hp] at hx
    exact ⟨c, le_refl _, Or.inl hx⟩
  · simp [dirArg, hp] at hx
    rcases hx with hx | hx
    · exact ⟨c, le_refl _, Or.inr hx⟩
    · exact ⟨c, le_refl _, Or.inl hx⟩

theorem loop_outputs (V : Int) (args : Args F) : ∀ (frames : List Frame) (s : Vars),
    1 ≤ s.frame_count → s.frame_count ≤ INT_MAX →
    (outputFiles (loop V args s frames).1).Nodup ∧
    ∀ x ∈ outputFiles (loop V args s frames).1,
      ∃ j, s.frame_count ≤ j ∧ (x = edgeName j ∨ x = directionName j) := by
  intro frames
  induction frames with
  | nil =>
    intro s _ _
    simp [loop, outputFiles]
  | cons it rest ih =>
    intro s h1 h2
    have hone : ((dirArg s.dirfilename s.frame_count).toList ++ [edgeName s.frame_count]).Nodup ∧
        ∀ x ∈ (dirArg s.dirfilename s.frame_count).toList ++ [edgeName s.frame_count],
          ∃ j, s.frame_count ≤ j ∧ (x = edgeName j ∨ x = directionName j) := by
      refine ⟨?_, fun x hx => cycle_outputs_named _ _ x hx⟩
      simpa using cycle_outputs_fresh s.dirfilename s.frame_count h1 [] List.nodup_nil
        (fun x hx => absurd hx (List.not_mem_nil x))
    rcases iteration_cases V args s it with
      ⟨hq, hu | ⟨why, t, hb, _, _⟩ | ⟨t, hn, hst⟩⟩ |
      ⟨hc, ⟨_, t, hb, _⟩ | ⟨_, hu | ⟨hlt, t, hn, h3, _⟩⟩⟩
    · rw [loop_cons_undef V args s it rest hu]
      simp [hq.2.2.2.1]
    · rw [loop_cons_brk V args s t why it rest hb]
      simp [hq.2.2.2.1]
    · obtain ⟨a, b⟩ := ih t (by rw [hst.1]; exact h1) (by rw [hst.1]; exact h2)
      rw [hst.1] at b
      rw [loop_cons_next V args s t it rest hn]
      simp only [outputFiles_append, hq.2.2.2.1, List.nil_append]
      exact ⟨a, b⟩
    · rw [loop_cons_brk V args s t _ it rest hb, hc.2.2.2]
      exact hone
    · rw [loop_cons_undef V args s it rest hu, hc.2.2.2]
      exact hone
    · obtain ⟨a, b⟩ := ih t (by omega) (by omega)
      rw [h3] at b
      rw [loop_cons_next V args s t it rest hn]
      simp only [outputFiles_append, hc.2.2.2]
      refine ⟨cycle_outputs_fresh _ _ h1 _ a b, ?_⟩
      intro x hx
      rcases List.mem_append.1 hx with hx | hx
      · exact cycle_outputs_named _ _ x hx
      · obtain ⟨j, hj, h⟩ := b x hx
        exact ⟨j, by omega, h⟩


theorem savedCount_nonneg (ev : List (Event F)) : 0 ≤ savedCount ev := by
  induction ev with
  | nil => simp [savedCount]
  | cons e ev ih =>
    cases e <;> simp only [savedCount] <;> try exact ih
    split_ifs <;> omega

theorem loop_append (V : Int) (args : Args F) : ∀ (pre : List Frame) (s t : Vars)
    (rest : List Frame), (loop V args s pre).2 = LoopEnd.pending t →
    loop V args s (pre ++ rest) =
      ((loop V args s pre).1 ++ (loop V args t rest).1, (loop V args t rest).2) := by
  intro pre
  induction pre with
  | nil =>
    intro s t rest h
    simp only [loop, LoopEnd.pending.injEq] at h
    subst h
    simp [loop]
  | cons it pre ih =>
    intro s t rest h
    cases hi : (iteration V args s it).2 with
    | next s1 =>
      rw [loop_cons_next V args s s1 it pre hi] at h
      simp only at h
      rw [List.cons_append, loop_cons_next V args s s1 it (pre ++ rest) hi,
        loop_cons_next V args s s1 it pre hi, ih s1 t rest h]
      simp
    | brk why s1 =>
      rw [loop_cons_brk V args s s1 why it pre hi] at h
      simp at h
    | undef =>
      rw [loop_cons_undef V args s it pre hi] at h
      simp at h

theorem loop_ended_frame_count (V : Int) (args : Args F) (env : Env) (frames : List Frame)
    (why : Reason) (t : Vars)
    (h : (loop V args (initVars args env) frames).2 = LoopEnd.ended why t) :
    t.frame_count - 1 = savedCount (loop V args (initVars args env) frames).1 := by
  obtain ⟨n, _, _, _, _, _, he⟩ :=
    loop_summary V args frames (initVars args env) (by simp [initVars]) (by simp [initVars, INT_MAX])
  have h1 := (he why t h).1
  have h2 : (initVars args env).frame_count = 1 := rfl
  rw [h2] at h1
  omega

theorem main_of_ended (V : Int) (args : Args F) (env : Env) (why : Reason) (t : Vars)
    (h4 : 4 ≤ args.argc) (ho : env.isOpened = true)
    (h : (loop V args (initVars args env) env.frames).2 = LoopEnd.ended why t) :
    main V args env =
      { trace := [Event.openCapture pipeline, Event.banner] ++
          (loop V args (initVars args env) env.frames).1 ++
          [Event.terminated (savedCount (loop V args (initVars args env) env.frames).1)],
        status := Status.returned 0 } := by
  have hc := loop_ended_frame_count V args env env.frames why t h
  have hn := savedCount_nonneg (loop V args (initVars args env) env.frames).1
  have h4n : ¬ args.argc < 4 := by omega
  have hmin : ¬ t.frame_count - 1 < INT_MIN := by
    rw [hc]; simp only [INT_MIN]; omega
  cases hl : loop V args (initVars args env) env.frames with
  | mk ev e =>
    rw [hl] at h hc hn
    simp only at h hc hn
    subst h
    have hmin2 : INT_MIN ≤ savedCount ev := by simp only [INT_MIN]; omega
    simp [main, h4n, ho, hl, hc, hmin2]

theorem main_of_pending (V : Int) (args : Args F) (env : Env) (t : Vars)
    (h4 : 4 ≤ args.argc) (ho : env.isOpened = true)
    (h : (loop V args (initVars args env) env.frames).2 = LoopEnd.pending t) :
    main V args env =
      { trace := [Event.openCapture pipeline, Event.banner] ++
          (loop V args (initVars args env) env.frames).1,
        status := Status.running } := by
  have h4n : ¬ args.argc < 4 := by omega
  cases hl : loop V args (initVars args env) env.frames with
  | mk ev e =>
    rw [hl] at h
    simp only at h
    subst h
    simp [main, h4n, ho, hl]

theorem main_of_undefined (V : Int) (args : Args F) (env : Env)
    (h4 : 4 ≤ args.argc) (ho : env.isOpened = true)
    (h : (loop V args (initVars args env) env.frames).2 = LoopEnd.undefined) :
    main V args env =
      { trace := [Event.openCapture pipeline, Event.banner] ++
          (loop V args (initVars args env) env.frames).1,
        status := Status.undefined } := by
  have h4n : ¬ args.argc < 4 := by omega
  cases hl : loop V args (initVars args env) env.frames with
  | mk ev e =>
    rw [hl] at h
    simp only at h
    subst h
    simp [main, h4n, ho, hl]

theorem main_not_started (V : Int) (args : Args F) (env : Env)
    (h : args.argc < 4 ∨ env.isOpened = false) :
    Quiet (main V args env).trace := by
  by_cases h4 : args.argc < 4
  · simp [main, h4, Quiet, writeCalls, cannyCalls, cannyParams, outputFiles, savedCount]
  · have ho : env.isOpened = false := by
      rcases h with h | h
      · exact absurd h h4
      · exact h
    simp [main, h4, ho, Quiet, writeCalls, cannyCalls, cannyParams, outputFiles, savedCount]

/-- The calls of a run of `main` are those of its loop. -/
theorem main_calls (V : Int) (args : Args F) (env : Env)
    (h4 : 4 ≤ args.argc) (ho : env.isOpened = true) :
    writeCalls (main V args env).trace =
      writeCalls (loop V args (initVars args env) env.frames).1 ∧
    cannyCalls (main V args env).trace =
      cannyCalls (loop V args (initVars args env) env.frames).1 ∧
    cannyParams (main V args env).trace =
      cannyParams (loop V args (initVars args env) env.frames).1 ∧
    outputFiles (main V args env).trace =
      outputFiles (loop V args (initVars args env) env.frames).1 ∧
    savedCount (main V args env).trace =
      savedCount (loop V args (initVars args env) env.frames).1 := by
  cases hl : (loop V args (initVars args env) env.frames).2 with
  | ended why t =>
    rw [main_of_ended V args env why t h4 ho hl]
    simp [writeCalls_append, cannyCalls_append, cannyParams_append, outputFiles_append,
      savedCount_append, writeCalls, cannyCalls, cannyParams, outputFiles, savedCount]
  | pending t =>
    rw [main_of_pending V args env t h4 ho hl]
    simp [writeCalls, cannyCalls, cannyParams, outputFiles, savedCount]
  | undefined =>
    rw [main_of_undefined V args env h4 ho hl]
    simp [writeCalls, cannyCalls, cannyParams, outputFiles, savedCount]



theorem iteration_empty (V : Int) (args : Args F) (s : Vars) (it : Frame)
    (he : it.empty = true) :
    iteration V args s it = ([Event.emptyFrameError], Step.brk Reason.emptyFrame s) := by
  simp [iteration, he]

/-! ## Runs without undefined behaviour -/

theorem fpsUpdate_defined (s : Vars) (it : Frame) (h0 : 0 ≤ s.frame_counter)
    (hfc : s.frame_counter < INT_MAX) (hs0 : 0 ≤ s.start_time) (hs1 : s.start_time ≤ TIME_MAX)
    (hclock : ClockOk it) :
    ∃ s1, fpsUpdate s it = some s1 ∧ 0 ≤ s1.frame_counter ∧
      s1.frame_counter ≤ s.frame_counter + 1 ∧ 0 ≤ s1.start_time ∧
      s1.start_time ≤ TIME_MAX := by
  obtain ⟨c1, c2, c3, c4, c5⟩ := hclock
  have hnot : ¬ INT_MAX ≤ s.frame_counter := by omega
  have hr1 : ¬ (it.now1 - s.start_time < TIME_MIN ∨ TIME_MAX < it.now1 - s.start_time) := by
    simp only [TIME_MIN, TIME_MAX] at *
    omega
  have hr2 : ¬ (it.now2 - s.start_time < TIME_MIN ∨ TIME_MAX < it.now2 - s.start_time) := by
    simp only [TIME_MIN, TIME_MAX] at *
    omega
  by_cases h1 : 1 ≤ it.now1 - s.start_time
  · have hne : ¬ it.now2 - s.start_time = 0 := by omega
    refine ⟨{ s with fps := Int.tdiv (s.frame_counter + 1) (it.now2 - s.start_time),
                     frame_counter := 0, start_time := it.now3 }, ?_, ?_, ?_, c4, c5⟩
    · simp only [fpsUpdate, hnot, hr1, hr2, h1, hne, if_true, if_false]
    · exact le_refl _
    · show (0 : Int) ≤ s.frame_counter + 1
      omega
  · refine ⟨{ s with frame_counter := s.frame_counter + 1 }, ?_, ?_, ?_, hs0, hs1⟩
    · simp only [fpsUpdate, hnot, hr1, h1, if_false]
    · show (0 : Int) ≤ s.frame_counter + 1
      omega
    · exact le_refl _

theorem dispatch_defined (V : Int) (args : Args F) (s : Vars) (key wr : Int)
    (hfc : s.frame_count < INT_MAX) :
    (dispatch V args s key wr).2 ≠ Step.undef ∧
    ∀ t, (dispatch V args s key wr).2 = Step.next t →
      t.frame_counter = s.frame_counter ∧ t.frame_count ≤ s.frame_count + 1 ∧
      t.start_time = s.start_time := by
  have hm : ¬ INT_MAX ≤ s.frame_count := by omega
  by_cases hk : key = KEY_ESC
  · cases hp : s.dirfilename <;> by_cases hw : wr = 0 <;>
      simp [dispatch, hk, hp, hw, hm]
  · by_cases hq : key = KEY_q ∨ key = KEY_Q
    · simp [dispatch, hk, hq]
    · simp only [dispatch, hk, hq, if_false]
      refine ⟨by simp, ?_⟩
      intro t ht
      simp only [Step.next.injEq] at ht
      subst ht
      exact ⟨rfl, by omega, rfl⟩

/-- A loop that is given fewer iterations than either counter has room for,
under a clock that stays within the range of `time_t` and whose read in the
division is not earlier than its read in the condition, reaches no operation
without defined behaviour. -/
theorem loop_defined (V : Int) (args : Args F) : ∀ (frames : List Frame) (s : Vars),
    0 ≤ s.frame_counter → s.frame_counter + frames.length ≤ INT_MAX →
    s.frame_count + frames.length ≤ INT_MAX →
    0 ≤ s.start_time → s.start_time ≤ TIME_MAX →
    (∀ it ∈ frames, ClockOk it) →
    (loop V args s frames).2 ≠ LoopEnd.undefined := by
  intro frames
  induction frames with
  | nil => intro s _ _ _ _ _ _; simp [loop]
  | cons it rest ih =>
    intro s h0 h1 h2 hs0 hs1 hclock
    simp only [List.length_cons, Nat.cast_succ] at h1 h2
    by_cases he : it.empty = true
    · rw [loop_cons_brk V args s s Reason.emptyFrame it rest (by rw [iteration_empty V args s it he])]
      simp
    · obtain ⟨s1, hf, f0, f1, f2, f3⟩ := fpsUpdate_defined s it h0 (by omega) hs0 hs1
        (hclock it (List.mem_cons_self _ _))
      obtain ⟨g1, g2, _⟩ := fpsUpdate_same s s1 it hf
      have hit : (iteration V args s it).2 = (dispatch V args s1 it.key it.write_ret).2 := by
        simp [iteration, he, hf]
      obtain ⟨d1, d2⟩ := dispatch_defined V args s1 it.key it.write_ret (by omega)
      cases hd : (dispatch V args s1 it.key it.write_ret).2 with
      | next t =>
        obtain ⟨e1, e2, e3⟩ := d2 t hd
        rw [loop_cons_next V args s t it rest (by rw [hit, hd])]
        exact ih t (by omega) (by omega) (by omega) (by omega) (by omega)
          (fun x hx => hclock x (List.mem_cons_of_mem _ hx))
      | brk why t =>
        rw [loop_cons_brk V args s t why it rest (by rw [hit, hd])]
        simp
      | undef => exact absurd hd d1

/-- A run of `main` over fewer than `INT_MAX` iterations, under such a clock,
reaches no operation without defined behaviour. -/
theorem main_defined (V : Int) (args : Args F) (env : Env)
    (hlen : (env.frames.length : Int) < INT_MAX)
    (hstart : 0 ≤ env.start ∧ env.start ≤ TIME_MAX)
    (hclock : ∀ it ∈ env.frames, ClockOk it) :
    (main V args env).status ≠ Status.undefined := by
  by_cases h4 : args.argc < 4
  · simp [main, h4]
  · by_cases ho : env.isOpened = false
    · simp [main, h4, ho]
    · have h4p : 4 ≤ args.argc := by omega
      have hop : env.isOpened = true := by simpa using ho
      have hdef := loop_defined V args env.frames (initVars args env) (by simp [initVars])
        (by simp only [initVars]; omega) (by simp only [initVars]; omega)
        hstart.1 hstart.2 hclock
      cases hl : (loop V args (initVars args env) env.frames).2 with
      | ended why t => rw [main_of_ended V args env why t h4p hop hl]; simp
      | pending t => rw [main_of_pending V args env t h4p hop hl]; simp
      | undefined => exact absurd hl hdef

theorem iteration_quit (V : Int) (args : Args F) (s s1 : Vars) (it : Frame)
    (he : it.empty = false) (hf : fpsUpdate s it = some s1)
    (hk : it.key = KEY_q ∨ it.key = KEY_Q) :
    iteration V args s it = ([Event.preview s1.fps], Step.brk Reason.quit s1) := by
  have hne : it.key ≠ KEY_ESC := by
    rcases hk with h | h <;> rw [h] <;> decide
  simp [iteration, he, hf, dispatch, hne, hk]

/-! ## The claims -/

/-- C1: the exit status of `main`. With `argc < 4` the run is the usage line
followed by `exit(1)`: the frame source is not opened and nothing is written.
With `argc >= 4` and a frame source that failed to open the run is the opening
attempt and the error line followed by `return -1`: the loop is not entered.
With `argc >= 4` and an open frame source, if after any number of iterations
that let the loop go on a non-empty frame is shown and the key poll returns `q`
or `Q`, then `main` returns 0. -/
theorem main_exit_status (V : Int) (args : Args F) (env : Env) :
    (args.argc < 4 →
      main V args env = { trace := [Event.usage], status := Status.exited 1 }) ∧
    (4 ≤ args.argc → env.isOpened = false →
      main V args env =
        { trace := [Event.openCapture pipeline, Event.cameraError],
          status := Status.returned (-1) }) ∧
    (4 ≤ args.argc → env.isOpened = true →
      ∀ (pre : List Frame) (it : Frame) (rest : List Frame) (s s1 : Vars),
        env.frames = pre ++ it :: rest →
        (loop V args (initVars args env) pre).2 = LoopEnd.pending s →
        it.empty = false → fpsUpdate s it = some s1 →
        (it.key = 113 ∨ it.key = 81) →
        (main V args env).status = Status.returned 0) := by
  refine ⟨?_, ?_, ?_⟩
  · intro h
    simp [main, h]
  · intro h4 ho
    have h4n : ¬ args.argc < 4 := by omega
    simp [main, h4n, ho]
  · intro h4 ho pre it rest s s1 hfr hpre he hf hk
    have hit := iteration_quit V args s s1 it he hf hk
    have hl : (loop V args (initVars args env) env.frames).2 = LoopEnd.ended Reason.quit s1 := by
      rw [hfr, loop_append V args pre _ s (it :: rest) hpre,
        loop_cons_brk V args s s1 Reason.quit it rest (by rw [hit])]
    rw [main_of_ended V args env Reason.quit s1 h4 ho hl]

/-- Witness of C1: three arguments give `exit(1)`, a closed frame source gives
`return -1`, and the key `q` in the second iteration gives `return 0`. -/
theorem main_exit_status_witness :
    main 0 (sampleArgs 3) ⟨true, 0, [frameAt 0 27 1]⟩ =
      { trace := [Event.usage], status := Status.exited 1 } ∧
    main 0 (sampleArgs 4) ⟨false, 0, [frameAt 0 27 1]⟩ =
      { trace := [Event.openCapture pipeline, Event.cameraError],
        status := Status.returned (-1) } ∧
    (main 0 (sampleArgs 4) ⟨true, 0, [frameAt 0 27 1, frameAt 1 113 1, frameAt 1 27 1]⟩).status =
      Status.returned 0 :=
  ⟨(main_exit_status 0 (sampleArgs 3) ⟨true, 0, [frameAt 0 27 1]⟩).1 (by decide),
   (main_exit_status 0 (sampleArgs 4) ⟨false, 0, [frameAt 0 27 1]⟩).2.1 (by decide) rfl,
   (main_exit_status 0 (sampleArgs 4)
      ⟨true, 0, [frameAt 0 27 1, frameAt 1 113 1, frameAt 1 27 1]⟩).2.2 (by decide) rfl
      [frameAt 0 27 1] (frameAt 1 113 1) [frameAt 1 27 1] _ _ rfl rfl rfl rfl (Or.inl rfl)⟩


/-- C2, refuted as stated: with the key ESC and a `write_pgm_image` that
returns 0 the loop does not continue. The cycle runs (one `canny` call, one
`write_pgm_image` call), the error line is printed and the `break` of line 109
is executed. -/
theorem esc_cycle_with_failed_write_breaks :
    dispatch 0 (sampleArgs 4) (initVars (sampleArgs 4) ⟨true, 0, []⟩) 27 0 =
      ([Event.canny 480 640 1 (3 / 10) (7 / 10) none,
        Event.write_pgm_image "frame001.pgm" 480 640 255 0,
        Event.writeError "frame001.pgm"],
       Step.brk Reason.writeFailed
        { dirfilename := DirPtr.null, filename := "frame001.pgm", frame_count := 1, fps := 0,
          frame_counter := 0, start_time := 0 }) := by
  rfl

/-- C2, amended: the key dispatch of one iteration. Key 27 (ESC) causes exactly
one detect-and-save cycle, one call of `canny` followed by one call of
`write_pgm_image` under the edge name of the current sequence number; the loop
then continues with the sequence number advanced by one when the write returned
a non-zero value (the counter being below `INT_MAX`), and ends when the write
returned 0. Key `q` (113) or `Q` (81) ends the loop with no event at all. Every
other key value continues the loop with no event and with all variables,
the saved-frame counter among them, unchanged. -/
theorem key_dispatch (V : Int) (args : Args F) (s : Vars) (key write_ret : Int) :
    (key = 27 →
      collaboratorCalls (dispatch V args s key write_ret).1 =
        [Event.canny HEIGHT WIDTH args.sigma args.tlow args.thigh
            (dirArg s.dirfilename s.frame_count),
         Event.write_pgm_image (edgeName s.frame_count) HEIGHT WIDTH 255 write_ret] ∧
      (write_ret ≠ 0 → s.frame_count < INT_MAX →
        ∃ t, (dispatch V args s key write_ret).2 = Step.next t ∧
          t.frame_count = s.frame_count + 1) ∧
      (write_ret = 0 →
        ∃ t, (dispatch V args s key write_ret).2 = Step.brk Reason.writeFailed t ∧
          t.frame_count = s.frame_count)) ∧
    ((key = 113 ∨ key = 81) →
      dispatch V args s key write_ret = ([], Step.brk Reason.quit s)) ∧
    (key ≠ 27 → key ≠ 113 → key ≠ 81 →
      dispatch V args s key write_ret = ([], Step.next s)) := by
  refine ⟨?_, ?_, ?_⟩
  · intro hk
    subst hk
    refine ⟨?_, ?_, ?_⟩
    · cases hp : s.dirfilename <;> by_cases hv : V = 0 <;> by_cases hw : write_ret = 0 <;>
        by_cases hm : INT_MAX ≤ s.frame_count <;>
        simp [dispatch, KEY_ESC, hp, hv, hw, hm, deref, dirArg, collaboratorCalls]
    · intro hw hm
      have hm2 : ¬ INT_MAX ≤ s.frame_count := by omega
      cases hp : s.dirfilename <;> simp [dispatch, KEY_ESC, hp, hw, hm2]
    · intro hw
      cases hp : s.dirfilename <;> simp [dispatch, KEY_ESC, hp, hw]
  · intro hk
    have hne : key ≠ KEY_ESC := by
      rcases hk with h | h <;> rw [h] <;> decide
    have hk2 : key = KEY_q ∨ key = KEY_Q := hk
    simp [dispatch, hne, hk2]
  · intro h1 h2 h3
    have hne : key ≠ KEY_ESC := h1
    have hq : ¬ (key = KEY_q ∨ key = KEY_Q) := by
      intro h
      rcases h with h | h
      · exact h2 h
      · exact h3 h
    simp only [dispatch, hne, hq, if_false]

/-- Witness of C2: ESC with a successful write, `q`, and the no-key value -1,
each in the initial state of a run with four arguments. -/
theorem key_dispatch_witness :
    (collaboratorCalls
        (dispatch 0 (sampleArgs 4) (initVars (sampleArgs 4) ⟨true, 0, []⟩) 27 1).1 =
        [Event.canny HEIGHT WIDTH 1 (3 / 10) (7 / 10) (dirArg DirPtr.null 1),
         Event.write_pgm_image (edgeName 1) HEIGHT WIDTH 255 1] ∧
      ∃ t, (dispatch 0 (sampleArgs 4) (initVars (sampleArgs 4) ⟨true, 0, []⟩) 27 1).2 =
          Step.next t ∧ t.frame_count = 1 + 1) ∧
    dispatch 0 (sampleArgs 4) (initVars (sampleArgs 4) ⟨true, 0, []⟩) 113 1 =
      ([], Step.brk Reason.quit (initVars (sampleArgs 4) ⟨true, 0, []⟩)) ∧
    dispatch 0 (sampleArgs 4) (initVars (sampleArgs 4) ⟨true, 0, []⟩) (-1) 1 =
      ([], Step.next (initVars (sampleArgs 4) ⟨true, 0, []⟩)) :=
  ⟨⟨((key_dispatch 0 (sampleArgs 4) (initVars (sampleArgs 4) ⟨true, 0, []⟩) 27 1).1 rfl).1,
    ((key_dispatch 0 (sampleArgs 4) (initVars (sampleArgs 4) ⟨true, 0, []⟩) 27 1).1 rfl).2.1
      (by decide) (by decide)⟩,
   (key_dispatch 0 (sampleArgs 4) (initVars (sampleArgs 4) ⟨true, 0, []⟩) 113 1).2.1
      (Or.inl rfl),
   (key_dispatch 0 (sampleArgs 4) (initVars (sampleArgs 4) ⟨true, 0, []⟩) (-1) 1).2.2
      (by decide) (by decide) (by decide)⟩


theorem fmt03d_nat (k : Nat) : fmt03d (k : Int) = zeroPad 3 (Nat.toDigits 10 k) := by
  have h : ¬ ((k : Int) < 0) := by omega
  simp [fmt03d, h]

/-- The calls of the loop started by `main`, listed by cycle. -/
theorem main_cycles (V : Int) (args : Args F) (env : Env) :
    ∃ n : Nat, (n : Int) ≤ INT_MAX ∧
      writeCalls (main V args env).trace =
        (List.range n).map (fun i => edgeName (((i + 1 : Nat) : Int))) ∧
      cannyCalls (main V args env).trace =
        (List.range n).map (fun i =>
          if args.argc = 5 then some (directionName (((i + 1 : Nat) : Int))) else none) ∧
      cannyParams (main V args env).trace =
        List.replicate n (args.sigma, args.tlow, args.thigh) := by
  by_cases h : args.argc < 4 ∨ env.isOpened = false
  · obtain ⟨q1, q2, q3, _, _⟩ := main_not_started V args env h
    exact ⟨0, by simp [INT_MAX], by simp [q1], by simp [q2], by simp [q3]⟩
  · push_neg at h
    have ho : env.isOpened = true := by simpa using h.2
    obtain ⟨m1, m2, m3, _, _⟩ := main_calls V args env h.1 ho
    obtain ⟨n, b, w, c, p, _, _⟩ :=
      loop_summary V args env.frames (initVars args env) (by simp [initVars])
        (by simp [initVars, INT_MAX])
    have hfc : (initVars args env).frame_count = 1 := rfl
    rw [hfc] at b w c
    refine ⟨n, by omega, ?_, ?_, ?_⟩
    · rw [m1, w]
      apply List.map_congr_left
      intro i _
      congr 1
      push_cast
      ring
    · rw [m2, c]
      apply List.map_congr_left
      intro i _
      have e : (1 : Int) + (i : Int) = ((i + 1 : Nat) : Int) := by push_cast; ring
      rw [e]
      by_cases h5 : args.argc = 5 <;> simp [initVars, dirArg, h5]
    · rw [m3, p]

/-- C3: for every `k >= 1`, the `k`-th call of `write_pgm_image` in a run (the
`k`-th detect-and-save cycle; every earlier write succeeded, since a failed one
ends the loop) carries the name `frame`, then the decimal digits of `k` padded
with zeros to at least three characters, then `.pgm`. This is what
`sprintf(filename, "frame%03d.pgm", frame_count)` produces for `frame_count = k`,
and `k` is within the range of `int`. The sequence number starts at 1; an
iteration after which the loop goes on advances it by one if it ran a cycle and
leaves it unchanged otherwise. -/
theorem edge_file_sequence (V : Int) (args : Args F) (env : Env) (k : Nat) (w : String)
    (hk : 1 ≤ k) (hw : (writeCalls (main V args env).trace)[k - 1]? = some w) :
    w = String.mk ("frame".toList ++ zeroPad 3 (Nat.toDigits 10 k) ++ ".pgm".toList) ∧
    w = edgeName (k : Int) ∧ (k : Int) ≤ INT_MAX ∧
    (initVars args env).frame_count = 1 ∧
    (∀ (s t : Vars) (it : Frame), (iteration V args s it).2 = Step.next t →
      (writeCalls (iteration V args s it).1).length ≤ 1 ∧
      t.frame_count = s.frame_count + (writeCalls (iteration V args s it).1).length) := by
  obtain ⟨n, hn, hwc, _, _⟩ := main_cycles V args env
  rw [hwc, List.getElem?_map] at hw
  have hlt : k - 1 < n := by
    by_contra hge
    rw [List.getElem?_eq_none (by simpa using Nat.le_of_not_lt hge)] at hw
    simp at hw
  rw [List.getElem?_range hlt] at hw
  simp only [Option.map_some', Option.some.injEq] at hw
  have hk1 : k - 1 + 1 = k := by omega
  rw [hk1] at hw
  refine ⟨?_, hw.symm, by omega, rfl, ?_⟩
  · rw [← hw, edgeName, fmt03d_nat]
  · intro s t it hnext
    rcases iteration_cases V args s it with
      ⟨hq, hu | ⟨why, t2, hb, _, _⟩ | ⟨t2, hn2, hst⟩⟩ |
      ⟨hc, ⟨_, t2, hb, _⟩ | ⟨_, hu | ⟨_, t2, hn2, h3, _⟩⟩⟩
    · rw [hu] at hnext; simp at hnext
    · rw [hb] at hnext; simp at hnext
    · rw [hn2] at hnext
      simp only [Step.next.injEq] at hnext
      subst hnext
      simp [hq.1, hst.1]
    · rw [hb] at hnext; simp at hnext
    · rw [hu] at hnext; simp at hnext
    · rw [hn2] at hnext
      simp only [Step.next.injEq] at hnext
      subst hnext
      simp [hc.1, h3]

/-- Witness of C3: in a run with two cycles and an idle iteration between them
the second write goes to `frame002.pgm`. -/
theorem edge_file_sequence_witness :
    (writeCalls (main 0 (sampleArgs 4)
      ⟨true, 0, [frameAt 0 27 1, frameAt 0 (-1) 1, frameAt 0 27 1]⟩).trace)[2 - 1]? =
        some "frame002.pgm" ∧
    "frame002.pgm" =
      String.mk ("frame".toList ++ zeroPad 3 (Nat.toDigits 10 2) ++ ".pgm".toList) :=
  ⟨by rfl,
   (edge_file_sequence 0 (sampleArgs 4)
      ⟨true, 0, [frameAt 0 27 1, frameAt 0 (-1) 1, frameAt 0 27 1]⟩ 2 "frame002.pgm"
      (by decide) (by rfl)).1⟩


/-- C4, refuted as stated: with `argc = 6` (a fourth and a fifth argument after
the program name and the three parameters) the cycle passes a null direction
file name to `canny`. -/
theorem six_arguments_pass_null_direction :
    (6 : Int) ≥ 5 ∧
    cannyCalls (main 0 (sampleArgs 6) ⟨true, 0, [frameAt 0 27 1]⟩).trace = [none] := by
  exact ⟨by decide, by rfl⟩

/-- C4, amended: for `argc = 5` exactly, the `k`-th call of `canny` in a run,
the first and every later one, receives the non-null direction file name
`frame`, then the sequence number `k` padded with zeros to at least three
digits, then `_direction.fim`; for every other `argc >= 4` (`argc = 4` and
`argc >= 6`) it receives a null direction file name. In both cases the `k`-th
call of `write_pgm_image`, the one of the same cycle, carries the edge name of
the same sequence number `k`. -/
theorem direction_file_argument (V : Int) (args : Args F) (env : Env) (k : Nat)
    (d : Option String) (hk : 1 ≤ k)
    (hd : (cannyCalls (main V args env).trace)[k - 1]? = some d) :
    d = (if args.argc = 5 then
          some (String.mk ("frame".toList ++ zeroPad 3 (Nat.toDigits 10 k) ++
            "_direction.fim".toList))
        else none) ∧
    (writeCalls (main V args env).trace)[k - 1]? =
      some (String.mk ("frame".toList ++ zeroPad 3 (Nat.toDigits 10 k) ++ ".pgm".toList)) := by
  obtain ⟨n, hn, hwc, hcc, _⟩ := main_cycles V args env
  rw [hcc, List.getElem?_map] at hd
  have hlt : k - 1 < n := by
    by_contra hge
    rw [List.getElem?_eq_none (by simpa using Nat.le_of_not_lt hge)] at hd
    simp at hd
  rw [List.getElem?_range hlt] at hd
  simp only [Option.map_some', Option.some.injEq] at hd
  have hk1 : k - 1 + 1 = k := by omega
  rw [hk1] at hd
  refine ⟨?_, ?_⟩
  · rw [← hd]
    by_cases h5 : args.argc = 5
    · simp only [h5, if_true, directionName, fmt03d_nat]
    · simp only [h5, if_false]
  · rw [hwc, List.getElem?_map, List.getElem?_range hlt]
    simp only [Option.map_some', hk1, edgeName, fmt03d_nat]

/-- Witness of C4: with `argc = 5` the second cycle hands `canny` the name
`frame002_direction.fim` and writes `frame002.pgm`. -/
theorem direction_file_argument_witness :
    some "frame002_direction.fim" =
      (if (sampleArgs 5).argc = 5 then
          some (String.mk ("frame".toList ++ zeroPad 3 (Nat.toDigits 10 2) ++
            "_direction.fim".toList))
        else none) ∧
    (writeCalls (main 0 (sampleArgs 5)
      ⟨true, 0, [frameAt 0 27 1, frameAt 0 27 1]⟩).trace)[2 - 1]? =
      some (String.mk ("frame".toList ++ zeroPad 3 (Nat.toDigits 10 2) ++ ".pgm".toList)) :=
  direction_file_argument 0 (sampleArgs 5) ⟨true, 0, [frameAt 0 27 1, frameAt 0 27 1]⟩ 2
    (some "frame002_direction.fim") (by decide) (by rfl)


theorem dispatch_withParams (V : Int) (args : Args F) (a b c : F) (s : Vars) (key wr : Int) :
    dispatch V { args with sigma := a, tlow := b, thigh := c } s key wr =
      ((dispatch V args s key wr).1.map (withParams a b c), (dispatch V args s key wr).2) := by
  by_cases hk : key = KEY_ESC
  · cases hp : s.dirfilename <;> by_cases hv : V = 0 <;> by_cases hw : wr = 0 <;>
      by_cases hm : INT_MAX ≤ s.frame_count <;>
      simp [dispatch, hk, hp, hv, hw, hm, withParams]
  · by_cases hq : key = KEY_q ∨ key = KEY_Q <;> simp [dispatch, hk, hq]

theorem iteration_withParams (V : Int) (args : Args F) (a b c : F) (s : Vars) (it : Frame) :
    iteration V { args with sigma := a, tlow := b, thigh := c } s it =
      ((iteration V args s it).1.map (withParams a b c), (iteration V args s it).2) := by
  by_cases he : it.empty = true
  · simp [iteration, he, withParams]
  · cases hf : fpsUpdate s it with
    | none => simp [iteration, he, hf]
    | some s1 => simp [iteration, he, hf, dispatch_withParams V args a b c, withParams]

theorem loop_withParams (V : Int) (args : Args F) (a b c : F) :
    ∀ (frames : List Frame) (s : Vars),
    loop V { args with sigma := a, tlow := b, thigh := c } s frames =
      ((loop V args s frames).1.map (withParams a b c), (loop V args s frames).2) := by
  intro frames
  induction frames with
  | nil => intro s; rfl
  | cons it rest ih =>
    intro s
    have hi := iteration_withParams V args a b c s it
    cases hs : (iteration V args s it).2 with
    | next t =>
      rw [loop_cons_next V args s t it rest hs,
        loop_cons_next V _ s t it rest (by rw [hi]; exact hs), ih t, hi]
      simp
    | brk why t =>
      rw [loop_cons_brk V args s t why it rest hs,
        loop_cons_brk V _ s t why it rest (by rw [hi]; exact hs), hi]
    | undef =>
      rw [loop_cons_undef V args s it rest hs,
        loop_cons_undef V _ s it rest (by rw [hi]; exact hs), hi]

theorem main_withParams (V : Int) (args : Args F) (a b c : F) (env : Env) :
    main V { args with sigma := a, tlow := b, thigh := c } env =
      { trace := (main V args env).trace.map (withParams a b c),
        status := (main V args env).status } := by
  by_cases h4 : args.argc < 4
  · simp [main, h4, withParams]
  · by_cases ho : env.isOpened = false
    · simp [main, h4, ho, withParams]
    · have hinit : initVars { args with sigma := a, tlow := b, thigh := c } env =
          initVars args env := rfl
      have hl := loop_withParams V args a b c env.frames (initVars args env)
      cases hr : loop V args (initVars args env) env.frames with
      | mk ev e =>
        rw [hr] at hl
        cases e with
        | ended why t =>
          by_cases hmin : t.frame_count - 1 < INT_MIN <;>
            simp [main, h4, ho, hinit, hl, hr, hmin, withParams]
        | pending t => simp [main, h4, ho, hinit, hl, hr, withParams]
        | undefined => simp [main, h4, ho, hinit, hl, hr, withParams]

/-- C5, refuted as stated: with `sigma = 0` and `tlow = thigh = 0.5` a press of
ESC runs the cycle all the same: `canny` is invoked with exactly this triple and
`write_pgm_image` is called for `frame001.pgm`; the run contains no report of an
invalid parameter. -/
theorem degenerate_parameters_reach_detector :
    (degenerateArgs.tlow ≥ degenerateArgs.thigh ∧ degenerateArgs.sigma ≤ 0) ∧
    main 0 degenerateArgs ⟨true, 0, [frameAt 0 27 1, frameAt 0 113 1]⟩ =
      { trace := [Event.openCapture pipeline, Event.banner, Event.preview 0,
                  Event.canny 480 640 0 (1 / 2) (1 / 2) none,
                  Event.write_pgm_image "frame001.pgm" 480 640 255 1,
                  Event.processed 1, Event.showEdges,
                  Event.preview 0, Event.terminated 1],
        status := Status.returned 0 } := by
  refine ⟨⟨?_, ?_⟩, ?_⟩
  · simp [degenerateArgs]
  · simp [degenerateArgs]
  · rfl

/-- C5, amended: `main` does not examine `sigma`, `tlow` and `thigh`. For every
triple, those with `tlow >= thigh` or `sigma <= 0` included, a cycle invokes
`canny` with exactly the triple of the command line and calls `write_pgm_image`
for the frame file; a run has as many `canny` calls with that triple as it has
`write_pgm_image` calls; and a run with any other triple has the same status
and the same trace up to the triple shown in the `canny` calls. `main` itself
reports no parameter error. -/
theorem parameters_passed_unchecked (V : Int) (args : Args F) (env : Env) (s : Vars)
    (write_ret : Int) (a b c : F) :
    cannyParams (dispatch V args s 27 write_ret).1 = [(args.sigma, args.tlow, args.thigh)] ∧
    writeCalls (dispatch V args s 27 write_ret).1 = [edgeName s.frame_count] ∧
    cannyParams (main V args env).trace =
      List.replicate (writeCalls (main V args env).trace).length
        (args.sigma, args.tlow, args.thigh) ∧
    main V { args with sigma := a, tlow := b, thigh := c } env =
      { trace := (main V args env).trace.map (withParams a b c),
        status := (main V args env).status } := by
  obtain ⟨hc, _, _⟩ := dispatch_cases V args s 27 write_ret |>.resolve_left
    (fun h => h.2.1 rfl)
  obtain ⟨n, _, hwc, _, hp⟩ := main_cycles V args env
  refine ⟨hc.2.2.1, hc.1, ?_, main_withParams V args a b c env⟩
  rw [hp, hwc]
  simp


theorem loop_pending_frame_count (V : Int) (args : Args F) (env : Env) (frames : List Frame)
    (t : Vars) (h : (loop V args (initVars args env) frames).2 = LoopEnd.pending t) :
    t.frame_count - 1 = savedCount (loop V args (initVars args env) frames).1 := by
  obtain ⟨n, _, _, _, _, hp, _⟩ :=
    loop_summary V args frames (initVars args env) (by simp [initVars]) (by simp [initVars, INT_MAX])
  obtain ⟨h1, h2⟩ := hp t h
  have h3 : (initVars args env).frame_count = 1 := rfl
  rw [h3] at h1
  omega

theorem iteration_failed_write (V : Int) (args : Args F) (s s1 : Vars) (it : Frame)
    (he : it.empty = false) (hf : fpsUpdate s it = some s1)
    (hk : it.key = KEY_ESC) (hw : it.write_ret = 0) :
    (∃ t, (iteration V args s it).2 = Step.brk Reason.writeFailed t ∧
      t.frame_count = s.frame_count) ∧
    (iteration V args s it).1.getLast? = some (Event.writeError (edgeName s.frame_count)) ∧
    savedCount (iteration V args s it).1 = 0 := by
  obtain ⟨h1, _, _⟩ := fpsUpdate_same s s1 it hf
  cases hp : s1.dirfilename <;> by_cases hv : V = 0 <;>
    simp [iteration, he, hf, dispatch, hk, hw, hp, hv, h1, savedCount, List.getLast?]

/-- The run of `main` when the loop is left in the iteration that follows the
iterations `pre`. -/
theorem main_of_break (V : Int) (args : Args F) (env : Env) (pre : List Frame) (it : Frame)
    (rest : List Frame) (s t : Vars) (why : Reason)
    (h4 : 4 ≤ args.argc) (ho : env.isOpened = true)
    (hfr : env.frames = pre ++ it :: rest)
    (hpre : (loop V args (initVars args env) pre).2 = LoopEnd.pending s)
    (hb : (iteration V args s it).2 = Step.brk why t)
    (hfc : t.frame_count = s.frame_count) :
    main V args env =
      { trace := [Event.openCapture pipeline, Event.banner] ++
          (loop V args (initVars args env) pre).1 ++ (iteration V args s it).1 ++
          [Event.terminated (s.frame_count - 1)],
        status := Status.returned 0 } := by
  have hl : loop V args (initVars args env) env.frames =
      ((loop V args (initVars args env) pre).1 ++ (iteration V args s it).1,
        LoopEnd.ended why t) := by
    rw [hfr, loop_append V args pre _ s (it :: rest) hpre,
      loop_cons_brk V args s t why it rest hb]
  have hend : (loop V args (initVars args env) env.frames).2 = LoopEnd.ended why t := by
    rw [hl]
  have hc := loop_ended_frame_count V args env env.frames why t hend
  rw [main_of_ended V args env why t h4 ho hend, ← hc, hfc, hl]
  simp

/-- C6, refuted as stated: after a cycle whose `write_pgm_image` returned 0 the
loop does not continue. The ESC of the second frame is never seen: the run ends
after the error line with the termination line and `return 0`. -/
theorem failed_write_ends_the_run :
    main 0 (sampleArgs 4) ⟨true, 0, [frameAt 0 27 0, frameAt 0 27 1]⟩ =
      { trace := [Event.openCapture pipeline, Event.banner, Event.preview 0,
                  Event.canny 480 640 1 (3 / 10) (7 / 10) none,
                  Event.write_pgm_image "frame001.pgm" 480 640 255 0,
                  Event.writeError "frame001.pgm",
                  Event.terminated 0],
        status := Status.returned 0 } := by
  rfl

/-- C6, amended: when `write_pgm_image` returns 0 in a detect-and-save cycle,
the failure is reported (the last event of the iteration is the error line
naming the file) and the capture loop ends: no further frame is acquired,
whatever would follow, the saved-frame counter is not advanced, the termination
line is printed and `main` returns 0. -/
theorem write_failure_ends_loop (V : Int) (args : Args F) (env : Env) (pre : List Frame)
    (it : Frame) (rest : List Frame) (s s1 : Vars)
    (h4 : 4 ≤ args.argc) (ho : env.isOpened = true)
    (hfr : env.frames = pre ++ it :: rest)
    (hpre : (loop V args (initVars args env) pre).2 = LoopEnd.pending s)
    (he : it.empty = false) (hf : fpsUpdate s it = some s1)
    (hk : it.key = 27) (hw : it.write_ret = 0) :
    (iteration V args s it).1.getLast? = some (Event.writeError (edgeName s.frame_count)) ∧
    savedCount (iteration V args s it).1 = 0 ∧
    main V args env =
      { trace := [Event.openCapture pipeline, Event.banner] ++
          (loop V args (initVars args env) pre).1 ++ (iteration V args s it).1 ++
          [Event.terminated (s.frame_count - 1)],
        status := Status.returned 0 } := by
  obtain ⟨⟨t, hb, hfc⟩, hlast, hsc⟩ := iteration_failed_write V args s s1 it he hf hk hw
  exact ⟨hlast, hsc, main_of_break V args env pre it rest s t _ h4 ho hfr hpre hb hfc⟩

/-- Witness of C6: a successful cycle, then a cycle whose write fails, then a
frame that is never acquired. -/
theorem write_failure_ends_loop_witness :
    (iteration 0 (sampleArgs 4)
        { dirfilename := DirPtr.null, filename := "frame001.pgm", frame_count := 2, fps := 0,
          frame_counter := 1, start_time := 0 } (frameAt 0 27 0)).1.getLast? =
      some (Event.writeError (edgeName 2)) ∧
    savedCount (iteration 0 (sampleArgs 4)
        { dirfilename := DirPtr.null, filename := "frame001.pgm", frame_count := 2, fps := 0,
          frame_counter := 1, start_time := 0 } (frameAt 0 27 0)).1 = 0 ∧
    main 0 (sampleArgs 4) ⟨true, 0, [frameAt 0 27 1, frameAt 0 27 0, frameAt 0 27 1]⟩ =
      { trace := [Event.openCapture pipeline, Event.banner] ++
          (loop 0 (sampleArgs 4) (initVars (sampleArgs 4) ⟨true, 0, []⟩) [frameAt 0 27 1]).1 ++
          (iteration 0 (sampleArgs 4)
            { dirfilename := DirPtr.null, filename := "frame001.pgm", frame_count := 2,
              fps := 0, frame_counter := 1, start_time := 0 } (frameAt 0 27 0)).1 ++
          [Event.terminated (2 - 1)],
        status := Status.returned 0 } :=
  write_failure_ends_loop 0 (sampleArgs 4)
    ⟨true, 0, [frameAt 0 27 1, frameAt 0 27 0, frameAt 0 27 1]⟩
    [frameAt 0 27 1] (frameAt 0 27 0) [frameAt 0 27 1]
    { dirfilename := DirPtr.null, filename := "frame001.pgm", frame_count := 2, fps := 0,
      frame_counter := 1, start_time := 0 }
    { dirfilename := DirPtr.null, filename := "frame001.pgm", frame_count := 2, fps := 0,
      frame_counter := 2, start_time := 0 }
    (by decide) rfl rfl rfl rfl rfl rfl rfl

/-- C7, refuted as stated: a single empty frame ends the loop. The frame that
would follow is never acquired: the run ends after the error line with the
termination line and `return 0`. -/
theorem empty_frame_ends_the_run :
    main 0 (sampleArgs 4) ⟨true, 0, [emptyFrame, frameAt 0 27 1]⟩ =
      { trace := [Event.openCapture pipeline, Event.banner, Event.emptyFrameError,
                  Event.terminated 0],
        status := Status.returned 0 } := by
  rfl

/-- C7, amended: when a capture cycle yields an empty frame, the condition is
logged and the capture loop ends: nothing else happens in that iteration, no
further frame is acquired, whatever would follow, the termination line is
printed and `main` returns 0. -/
theorem empty_frame_ends_loop (V : Int) (args : Args F) (env : Env) (pre : List Frame)
    (it : Frame) (rest : List Frame) (s : Vars)
    (h4 : 4 ≤ args.argc) (ho : env.isOpened = true)
    (hfr : env.frames = pre ++ it :: rest)
    (hpre : (loop V args (initVars args env) pre).2 = LoopEnd.pending s)
    (he : it.empty = true) :
    main V args env =
      { trace := [Event.openCapture pipeline, Event.banner] ++
          (loop V args (initVars args env) pre).1 ++
          [Event.emptyFrameError, Event.terminated (s.frame_count - 1)],
        status := Status.returned 0 } := by
  have hit := iteration_empty V args s it he
  have hb : (iteration V args s it).2 = Step.brk Reason.emptyFrame s := by rw [hit]
  rw [main_of_break V args env pre it rest s s _ h4 ho hfr hpre hb rfl, hit]
  simp

/-- Witness of C7: a successful cycle, then an empty frame, then a frame that
is never acquired. -/
theorem empty_frame_ends_loop_witness :
    main 0 (sampleArgs 4) ⟨true, 0, [frameAt 0 27 1, emptyFrame, frameAt 0 27 1]⟩ =
      { trace := [Event.openCapture pipeline, Event.banner] ++
          (loop 0 (sampleArgs 4) (initVars (sampleArgs 4) ⟨true, 0, []⟩) [frameAt 0 27 1]).1 ++
          [Event.emptyFrameError, Event.terminated (2 - 1)],
        status := Status.returned 0 } :=
  empty_frame_ends_loop 0 (sampleArgs 4)
    ⟨true, 0, [frameAt 0 27 1, emptyFrame, frameAt 0 27 1]⟩
    [frameAt 0 27 1] emptyFrame [frameAt 0 27 1]
    { dirfilename := DirPtr.null, filename := "frame001.pgm", frame_count := 2, fps := 0,
      frame_counter := 1, start_time := 0 }
    (by decide) rfl rfl rfl rfl


/-- C8, refuted as stated: not every loop iteration increments the frame
counter first. An iteration whose frame is empty executes the `break` of line 69
before line 73 is reached: although the clock stands five seconds after the
start of the window, the frame counter stays at 7 and `fps` and `start_time`
stay as they are. -/
theorem empty_frame_skips_fps_window :
    iteration 0 (sampleArgs 4)
        { dirfilename := DirPtr.null, filename := "", frame_count := 1, fps := 0,
          frame_counter := 7, start_time := 0 }
        { empty := true, now1 := 5, now2 := 5, now3 := 5, key := -1, write_ret := 1 } =
      ([Event.emptyFrameError],
       Step.brk Reason.emptyFrame
        { dirfilename := DirPtr.null, filename := "", frame_count := 1, fps := 0,
          frame_counter := 7, start_time := 0 }) := by
  rfl

/-- C8, amended: the FPS window of a loop iteration whose frame is not empty,
in a state whose frame counter stands below `INT_MAX`, with the elapsed seconds
of the clock reads within the range of `time_t`. The frame counter is
incremented first. If the elapsed seconds at the read of the condition are
below 1, `fps` and `start_time` stay as they are and the rest of the loop body
(the overlay of `fps` and the key dispatch) runs with the incremented counter.
If they are at least 1 and the divisor, the elapsed seconds at the read of the
division, is not zero, `fps` becomes the quotient of the incremented counter by
the divisor, truncated towards zero to a whole number, the frame counter becomes
0, `start_time` becomes the clock value of the last read, and the rest of the
loop body runs with these values. Under a non-decreasing clock (the read of the
division not earlier than the read of the condition) the divisor is at least 1,
so the division does not divide by zero, and the quotient `q` of a non-negative
counter satisfies `q * divisor <= counter < (q + 1) * divisor`. -/
theorem fps_window (V : Int) (args : Args F) (s : Vars) (it : Frame)
    (he : it.empty = false) (hfc : s.frame_counter < INT_MAX)
    (hlo : TIME_MIN ≤ it.now1 - s.start_time) (hhi : it.now1 - s.start_time ≤ TIME_MAX) :
    (it.now1 - s.start_time < 1 →
      fpsUpdate s it = some { s with frame_counter := s.frame_counter + 1 } ∧
      iteration V args s it =
        (Event.preview s.fps ::
          (dispatch V args { s with frame_counter := s.frame_counter + 1 }
            it.key it.write_ret).1,
         (dispatch V args { s with frame_counter := s.frame_counter + 1 }
            it.key it.write_ret).2)) ∧
    (1 ≤ it.now1 - s.start_time →
      TIME_MIN ≤ it.now2 - s.start_time → it.now2 - s.start_time ≤ TIME_MAX →
      it.now2 - s.start_time ≠ 0 →
      fpsUpdate s it =
        some { s with fps := Int.tdiv (s.frame_counter + 1) (it.now2 - s.start_time),
                      frame_counter := 0,
                      start_time := it.now3 } ∧
      iteration V args s it =
        (Event.preview (Int.tdiv (s.frame_counter + 1) (it.now2 - s.start_time)) ::
          (dispatch V args
            { s with fps := Int.tdiv (s.frame_counter + 1) (it.now2 - s.start_time),
                     frame_counter := 0,
                     start_time := it.now3 } it.key it.write_ret).1,
         (dispatch V args
            { s with fps := Int.tdiv (s.frame_counter + 1) (it.now2 - s.start_time),
                     frame_counter := 0,
                     start_time := it.now3 } it.key it.write_ret).2)) ∧
    (1 ≤ it.now1 - s.start_time → it.now1 ≤ it.now2 →
      1 ≤ it.now2 - s.start_time ∧
      (0 ≤ s.frame_counter →
        Int.tdiv (s.frame_counter + 1) (it.now2 - s.start_time) * (it.now2 - s.start_time) ≤
          s.frame_counter + 1 ∧
        s.frame_counter + 1 <
          (Int.tdiv (s.frame_counter + 1) (it.now2 - s.start_time) + 1) *
            (it.now2 - s.start_time))) := by
  have hnot : ¬ INT_MAX ≤ s.frame_counter := by omega
  have hr1 : ¬ (it.now1 - s.start_time < TIME_MIN ∨ TIME_MAX < it.now1 - s.start_time) := by
    omega
  refine ⟨?_, ?_, ?_⟩
  · intro h1
    have h2 : ¬ 1 ≤ it.now1 - s.start_time := by omega
    have hf : fpsUpdate s it = some { s with frame_counter := s.frame_counter + 1 } := by
      simp only [fpsUpdate, hnot, hr1, h2, if_false]
    exact ⟨hf, by simp only [iteration, he, hf]; rfl⟩
  · intro h1 h2lo h2hi hne
    have hr2 : ¬ (it.now2 - s.start_time < TIME_MIN ∨ TIME_MAX < it.now2 - s.start_time) := by
      omega
    have hf : fpsUpdate s it =
        some { s with fps := Int.tdiv (s.frame_counter + 1) (it.now2 - s.start_time),
                      frame_counter := 0,
                      start_time := it.now3 } := by
      simp only [fpsUpdate, hnot, hr1, hr2, h1, hne, if_true, if_false]
    exact ⟨hf, by simp only [iteration, he, hf]; rfl⟩
  · intro h1 hclock
    have hd : 1 ≤ it.now2 - s.start_time := by omega
    refine ⟨hd, ?_⟩
    intro h0
    have hpos : 0 < it.now2 - s.start_time := by omega
    have hnum : 0 ≤ s.frame_counter + 1 := by omega
    rw [Int.tdiv_eq_ediv hnum (by omega)]
    constructor
    · exact Int.ediv_mul_le _ (by omega)
    · exact Int.lt_ediv_add_one_mul_self _ hpos

/-- Witness of C8: seven frames counted. A frame within the first second only
raises the counter to 8. A frame two seconds after the start of the window
gives `fps = 8 / 2 = 4`, resets the counter and restarts the window at 2. A
frame whose clock reads 1 in the condition and -2 in the division gives
`fps = 8 / -2 = -4`. -/
theorem fps_window_witness :
    iteration 0 (sampleArgs 4)
        { dirfilename := DirPtr.null, filename := "", frame_count := 1, fps := 0,
          frame_counter := 7, start_time := 0 } (frameAt 0 (-1) 1) =
      ([Event.preview 0],
       Step.next { dirfilename := DirPtr.null, filename := "", frame_count := 1, fps := 0,
                   frame_counter := 8, start_time := 0 }) ∧
    iteration 0 (sampleArgs 4)
        { dirfilename := DirPtr.null, filename := "", frame_count := 1, fps := 0,
          frame_counter := 7, start_time := 0 } (frameAt 2 (-1) 1) =
      ([Event.preview 4],
       Step.next { dirfilename := DirPtr.null, filename := "", frame_count := 1, fps := 4,
                   frame_counter := 0, start_time := 2 }) ∧
    iteration 0 (sampleArgs 4)
        { dirfilename := DirPtr.null, filename := "", frame_count := 1, fps := 0,
          frame_counter := 7, start_time := 0 }
        { empty := false, now1 := 1, now2 := -2, now3 := 3, key := -1, write_ret := 1 } =
      ([Event.preview (-4)],
       Step.next { dirfilename := DirPtr.null, filename := "", frame_count := 1, fps := -4,
                   frame_counter := 0, start_time := 3 }) ∧
    (1 : Int) ≤ 2 - 0 :=
  ⟨((fps_window 0 (sampleArgs 4)
        { dirfilename := DirPtr.null, filename := "", frame_count := 1, fps := 0,
          frame_counter := 7, start_time := 0 } (frameAt 0 (-1) 1)
        rfl (by decide) (by decide) (by decide)).1 (by decide)).2,
   ((fps_window 0 (sampleArgs 4)
        { dirfilename := DirPtr.null, filename := "", frame_count := 1, fps := 0,
          frame_counter := 7, start_time := 0 } (frameAt 2 (-1) 1)
        rfl (by decide) (by decide) (by decide)).2.1
        (by decide) (by decide) (by decide) (by decide)).2,
   ((fps_window 0 (sampleArgs 4)
        { dirfilename := DirPtr.null, filename := "", frame_count := 1, fps := 0,
          frame_counter := 7, start_time := 0 }
        { empty := false, now1 := 1, now2 := -2, now3 := 3, key := -1, write_ret := 1 }
        rfl (by decide) (by decide) (by decide)).2.1
        (by decide) (by decide) (by decide) (by decide)).2,
   ((fps_window 0 (sampleArgs 4)
        { dirfilename := DirPtr.null, filename := "", frame_count := 1, fps := 0,
          frame_counter := 7, start_time := 0 } (frameAt 2 (-1) 1)
        rfl (by decide) (by decide) (by decide)).2.2 (by decide) (by decide)).1⟩

theorem iteration_brk_frame_count (V : Int) (args : Args F) (s t : Vars) (it : Frame)
    (why : Reason) (h : (iteration V args s it).2 = Step.brk why t) :
    t.frame_count = s.frame_count := by
  rcases iteration_cases V args s it with
    ⟨_, hu | ⟨why2, t2, hb, _, hst⟩ | ⟨t2, hn2, _⟩⟩ |
    ⟨_, ⟨_, t2, hb, hst⟩ | ⟨_, hu | ⟨_, t2, hn2, _, _⟩⟩⟩
  · rw [hu] at h; simp at h
  · rw [hb] at h
    simp only [Step.brk.injEq] at h
    rw [← h.2]; exact hst.1
  · rw [hn2] at h; simp at h
  · rw [hb] at h
    simp only [Step.brk.injEq] at h
    rw [← h.2]; exact hst.1
  · rw [hu] at h; simp at h
  · rw [hn2] at h; simp at h

/-- C9: the invariant of the capture loop. After any list of iterations of the
loop started by `main`, if the loop stands at the start of its next iteration,
or has been left by a `break` (quit key, empty frame or failed write), then
`frame_count - 1` equals the number of `write_pgm_image` calls of the run that
returned a non-zero value. An iteration that ends in a `break`, the one with a
failed write among them, leaves `frame_count` as it found it. When `main`
returns 0, the last event of the run is the termination line, and the number it
prints is the number of edge images written successfully. -/
theorem saved_counter_invariant (V : Int) (args : Args F) (env : Env) (frames : List Frame) :
    (∀ s, (loop V args (initVars args env) frames).2 = LoopEnd.pending s →
      s.frame_count - 1 = savedCount (loop V args (initVars args env) frames).1) ∧
    (∀ why s, (loop V args (initVars args env) frames).2 = LoopEnd.ended why s →
      s.frame_count - 1 = savedCount (loop V args (initVars args env) frames).1) ∧
    (∀ (s t : Vars) (it : Frame) (why : Reason),
      (iteration V args s it).2 = Step.brk why t → t.frame_count = s.frame_count) ∧
    ((main V args env).status = Status.returned 0 →
      (main V args env).trace.getLast? =
        some (Event.terminated (savedCount (main V args env).trace))) := by
  refine ⟨fun s h => loop_pending_frame_count V args env frames s h,
    fun why s h => loop_ended_frame_count V args env frames why s h,
    fun s t it why h => iteration_brk_frame_count V args s t it why h, ?_⟩
  intro hst
  by_cases h4 : args.argc < 4
  · simp [main, h4] at hst
  · by_cases ho : env.isOpened = false
    · simp [main, h4, ho] at hst
    · have h4p : 4 ≤ args.argc := by omega
      have hop : env.isOpened = true := by simpa using ho
      cases hl : (loop V args (initVars args env) env.frames).2 with
      | ended why t =>
        have hsc := (main_calls V args env h4p hop).2.2.2.2
        rw [hsc, main_of_ended V args env why t h4p hop hl]
        exact List.getLast?_concat _
      | pending t =>
        rw [main_of_pending V args env t h4p hop hl] at hst
        simp at hst
      | undefined =>
        rw [main_of_undefined V args env h4p hop hl] at hst
        simp at hst

/-- Witness of C9: two successful cycles, a failed one, and a frame that is not
reached; the counter stands at 3 and the termination line prints 2. -/
theorem saved_counter_invariant_witness :
    (3 : Int) - 1 =
      savedCount (loop 0 (sampleArgs 5) (initVars (sampleArgs 5) ⟨true, 0, []⟩)
        [frameAt 0 27 1, frameAt 0 27 1]).1 ∧
    (3 : Int) - 1 =
      savedCount (loop 0 (sampleArgs 5) (initVars (sampleArgs 5) ⟨true, 0, []⟩)
        [frameAt 0 27 1, frameAt 0 27 1, frameAt 0 27 0, frameAt 0 27 1]).1 ∧
    (main 0 (sampleArgs 5)
        ⟨true, 0, [frameAt 0 27 1, frameAt 0 27 1, frameAt 0 27 0, frameAt 0 27 1]⟩).trace.getLast? =
      some (Event.terminated (savedCount (main 0 (sampleArgs 5)
        ⟨true, 0, [frameAt 0 27 1, frameAt 0 27 1, frameAt 0 27 0, frameAt 0 27 1]⟩).trace)) :=
  ⟨(saved_counter_invariant 0 (sampleArgs 5) ⟨true, 0, []⟩
      [frameAt 0 27 1, frameAt 0 27 1]).1
      { dirfilename := DirPtr.buffer, filename := "frame002.pgm", frame_count := 3, fps := 0,
        frame_counter := 2, start_time := 0 } rfl,
   (saved_counter_invariant 0 (sampleArgs 5) ⟨true, 0, []⟩
      [frameAt 0 27 1, frameAt 0 27 1, frameAt 0 27 0, frameAt 0 27 1]).2.1
      Reason.writeFailed
      { dirfilename := DirPtr.buffer, filename := "frame003.pgm", frame_count := 3, fps := 0,
        frame_counter := 3, start_time := 0 } rfl,
   (saved_counter_invariant 0 (sampleArgs 5)
      ⟨true, 0, [frameAt 0 27 1, frameAt 0 27 1, frameAt 0 27 0, frameAt 0 27 1]⟩ []).2.2.2 rfl⟩

/-- C10: the output names are injective on sequence numbers. For all `m` and
`n` with `1 <= m, n <= 2^31 - 1`: if `m` and `n` differ, the edge names for `m`
and `n` differ and the direction names for `m` and `n` differ; and the edge name
for `m` differs from the direction name for `n` (equal or not). Hence in every
run of `main` the output file names, edge and direction files together, are
pairwise distinct: no processed frame overwrites an output file of an earlier
processed frame of the same run. -/
theorem output_names_distinct (V : Int) (args : Args F) (env : Env) (m n : Int)
    (hm1 : 1 ≤ m) (hm2 : m ≤ 2 ^ 31 - 1) (hn1 : 1 ≤ n) (hn2 : n ≤ 2 ^ 31 - 1) :
    (m ≠ n → edgeName m ≠ edgeName n ∧ directionName m ≠ directionName n) ∧
    edgeName m ≠ directionName n ∧
    (outputFiles (main V args env).trace).Nodup := by
  refine ⟨?_, edgeName_ne_directionName m n, ?_⟩
  · intro hne
    exact ⟨fun h => hne (edgeName_inj m n (by omega) (by omega) h),
      fun h => hne (directionName_inj m n (by omega) (by omega) h)⟩
  · by_cases h : args.argc < 4 ∨ env.isOpened = false
    · rw [(main_not_started V args env h).2.2.2.1]
      exact List.nodup_nil
    · push_neg at h
      have ho : env.isOpened = true := by simpa using h.2
      rw [(main_calls V args env h.1 ho).2.2.2.1]
      exact (loop_outputs V args env.frames (initVars args env) (by simp [initVars])
        (by simp [initVars, INT_MAX])).1

/-- Witness of C10: the sequence numbers 1 and 2 in a run with direction files. -/
theorem output_names_distinct_witness :
    ((1 : Int) ≠ 2 → edgeName 1 ≠ edgeName 2 ∧ directionName 1 ≠ directionName 2) ∧
    edgeName 1 ≠ directionName 2 ∧
    (outputFiles (main 0 (sampleArgs 5)
      ⟨true, 0, [frameAt 0 27 1, frameAt 0 27 1]⟩).trace).Nodup :=
  output_names_distinct 0 (sampleArgs 5) ⟨true, 0, [frameAt 0 27 1, frameAt 0 27 1]⟩ 1 2
    (by decide) (by decide) (by decide) (by decide)

end CameraCanny
